import Mathlib

/-!
Verification of the tabular report engine and the `status` / `probes`
command pipelines of the kubectl-ice repository.

The domain glue (the `Status`, `Probes` command bodies, `statusBuildRow`,
`podStatusBuildRow`, `trimStatusMessage`, `probesBuildRow`, `buildProbeList`,
`buildProbeAction`) is translated directly from the Go source.  The generic
table engine (`Cell`, `Table`, `SetFilter`, `SortByNames`, `ListOutOfRange`,
`HideColumn`, `HideRows`, `GetRows`, rendering) is not part of the inspected
source files; those definitions are modelled from the specification, as
marked in their doc comments.
-/

namespace KubectlIce

/-!
String helpers.  The Lean core versions of `toLower`, `splitOn`, `trim`,
`startsWith`, … are defined by well-founded recursion, which the kernel
cannot evaluate; the structurally recursive versions below (over
`String.data`) mirror the Go `strings` functions used by the source and
evaluate inside `decide`/`rfl` proofs.
-/

/-- Lower-case a string character by character (Go `strings.ToLower`). -/
def strLower (s : String) : String :=
  String.mk (s.data.map Char.toLower)

/-- Lexical strict order on character lists, by code point. -/
def charListLt : List Char → List Char → Bool
  | [], [] => false
  | [], _ :: _ => true
  | _ :: _, [] => false
  | a :: as, b :: bs =>
    decide (a.toNat < b.toNat) || (decide (a.toNat = b.toNat) && charListLt as bs)

/-- Lexical strict order on strings (Go `<` on strings). -/
def strLt (a b : String) : Bool :=
  charListLt a.data b.data

/-- Does `p` occur as a prefix of `s` (Go `strings.HasPrefix`)? -/
def strHasPre (s p : String) : Bool :=
  p.data.isPrefixOf s.data

/-- Does `p` occur as a suffix of `s` (Go `strings.HasSuffix`)? -/
def strHasSuf (s p : String) : Bool :=
  p.data.isSuffixOf s.data

/-- Drop the first `n` characters of a string. -/
def strDrop (s : String) (n : Nat) : String :=
  String.mk (s.data.drop n)

/-- Drop the last `n` characters of a string. -/
def strDropRight (s : String) (n : Nat) : String :=
  String.mk (s.data.reverse.drop n |>.reverse)

/-- Fuel-based splitter: splits at each leftmost non-overlapping occurrence
of the (non-empty) separator, like Go `strings.Split`. -/
def splitOnAux (sep : List Char) : Nat → List Char → List Char → List (List Char)
  | 0, rest, acc => [(acc.reverse ++ rest)]
  | _ + 1, [], acc => [acc.reverse]
  | fuel + 1, c :: rest, acc =>
    if sep.isPrefixOf (c :: rest) then
      acc.reverse :: splitOnAux sep fuel (List.drop (sep.length - 1) rest) []
    else
      splitOnAux sep fuel rest (c :: acc)

/-- Split a string on every occurrence of a separator (Go `strings.Split`
with a non-empty separator). -/
def strSplitOn (s sep : String) : List String :=
  (splitOnAux sep.data s.data.length s.data []).map String.mk

/-- Is the character one of the ASCII whitespace characters trimmed by Go
`strings.TrimSpace`? -/
def isSpaceChar (c : Char) : Bool :=
  c == ' ' || c == '\t' || c == '\n' || c == '\r'

/-- Trim leading and trailing whitespace (Go `strings.TrimSpace`). -/
def strTrim (s : String) : String :=
  String.mk (((s.data.dropWhile isSpaceChar).reverse.dropWhile isSpaceChar).reverse)

/-- Modelled from the spec: a `Cell` is a display string plus an optional
canonical numeric value; `isNumeric` records which construction was used. -/
structure Cell where
  displayText : String
  numericValue : Int
  isNumeric : Bool
deriving DecidableEq, Repr

/-- Modelled from the spec: text-only cell, not orderable numerically. -/
def NewCellText (display : String) : Cell :=
  { displayText := display, numericValue := 0, isNumeric := false }

/-- Modelled from the spec: numeric cell; the display string is preserved
verbatim and `numericValue` is the source of truth for ordering/statistics. -/
def NewCellInt (display : String) (value : Int) : Cell :=
  { displayText := display, numericValue := value, isNumeric := true }

/-- Default cell used for out-of-range column lookups. -/
def defaultCell : Cell := NewCellText ""

/-- A row is an ordered sequence of cells. -/
abbrev Row := List Cell

/-- Modelled from the spec: the validation-class error kinds of the engine. -/
inductive TableError where
  | RowLengthMismatch
  | UnknownColumn
  | MalformedFilter
  | UnsupportedOutputFormat
  | InvalidColumnIndex
deriving DecidableEq, Repr

/-- Modelled from the spec: filter operators `=`, `!=` and `in`. -/
inductive FilterOp where
  | feq
  | fneq
  | fin
deriving DecidableEq, Repr

/-- Modelled from the spec: a parsed filter expression, prior to resolving
the field name against a concrete header. -/
structure FilterExpression where
  field : String
  op : FilterOp
  values : List String
deriving DecidableEq, Repr

/-- Modelled from the spec: a filter whose field name has been resolved to a
stable column index. -/
structure RFilter where
  col : Nat
  op : FilterOp
  values : List String
deriving DecidableEq, Repr

/-- Modelled from the spec: parse one filter-expression string with grammar
`field=value`, `field!=value` or `field in (v1,v2,...)`; `none` on a
syntax error (e.g. an unterminated `in (...)` list). -/
def parseFilterExpr (s : String) : Option FilterExpression :=
  match strSplitOn s " in (" with
  | [f, rest] =>
    if strHasSuf rest ")" then
      some { field := f, op := FilterOp.fin, values := strSplitOn (strDropRight rest 1) "," }
    else
      none
  | _ =>
    match strSplitOn s "!=" with
    | [f, v] => some { field := f, op := FilterOp.fneq, values := [v] }
    | _ =>
      match strSplitOn s "=" with
      | [f, v] => some { field := f, op := FilterOp.feq, values := [v] }
      | _ => none

/-- Modelled from the spec: header names are looked up case-insensitively
when resolving sort/filter column names. -/
def findColumnIdx (header : List String) (name : String) : Option Nat :=
  header.findIdx? (fun h => strLower h == strLower name)

/-- Modelled from the spec: a resolved filter keeps a row when the cell's
display text relates to the listed values under the operator. -/
def rfSatisfies (f : RFilter) (r : Row) : Bool :=
  let c := r.getD f.col defaultCell
  match f.op with
  | FilterOp.feq => match f.values with | [v] => c.displayText == v | _ => false
  | FilterOp.fneq => match f.values with | [v] => !(c.displayText == v) | _ => false
  | FilterOp.fin => f.values.contains c.displayText

/-- Modelled from the spec: multiple filter expressions combine with AND
semantics, a row is kept only if it satisfies every expression. -/
def rowPasses (fs : List RFilter) (r : Row) : Bool :=
  fs.all (fun f => rfSatisfies f r)

/-- Modelled from the spec: the table owns the header, rows, visibility
overlays and the configured filters. -/
structure Table where
  header : List String := []
  rows : List Row := []
  hiddenColumns : List Nat := []
  hiddenRows : List Nat := []
  filters : List RFilter := []
deriving DecidableEq, Repr

/-- Modelled from the spec: establishes the column positions. -/
def Table.SetHeader (t : Table) (names : List String) : Table :=
  { t with header := names }

/-- Modelled from the spec: `AddRow` rejects a cell sequence whose length
disagrees with the header (`RowLengthMismatch`), otherwise appends it. -/
def Table.AddRow (t : Table) (cells : List Cell) : Except TableError Table :=
  if cells.length ≠ t.header.length then
    Except.error TableError.RowLengthMismatch
  else
    Except.ok { t with rows := t.rows ++ [cells] }

/-- Modelled from the spec: idempotent visibility overlay on a column; an
out-of-range index is a defensive no-op (the implementer's choice offered
by the spec, documented here). -/
def Table.HideColumn (t : Table) (i : Nat) : Table :=
  if i < t.header.length then
    if t.hiddenColumns.contains i then t
    else { t with hiddenColumns := t.hiddenColumns ++ [i] }
  else t

/-- Modelled from the spec: returns the current full row set, including
hidden rows, for external analysis such as outlier detection. -/
def Table.GetRows (t : Table) : List Row :=
  t.rows

/-- Modelled from the spec: idempotent visibility overlay on rows; adding an
already-hidden index is a no-op. -/
def Table.HideRows (t : Table) (idxs : List Nat) : Table :=
  { t with
    hiddenRows := idxs.foldl (fun acc i => if acc.contains i then acc else acc ++ [i]) t.hiddenRows }

/-- Resolve a list of filter-expression strings against a header: a syntax
error yields `MalformedFilter`, an unknown field name `UnknownColumn`. -/
def resolveFilters (header : List String) : List String → Except TableError (List RFilter)
  | [] => Except.ok []
  | s :: rest =>
    match parseFilterExpr s with
    | none => Except.error TableError.MalformedFilter
    | some fe =>
      match findColumnIdx header fe.field with
      | none => Except.error TableError.UnknownColumn
      | some c =>
        match resolveFilters header rest with
        | Except.error e => Except.error e
        | Except.ok fs => Except.ok ({ col := c, op := fe.op, values := fe.values } :: fs)

/-- Modelled from the spec: parse every expression and install the resolved
filters on the table. -/
def Table.SetFilter (t : Table) (exprs : List String) : Except TableError Table :=
  match resolveFilters t.header exprs with
  | Except.error e => Except.error e
  | Except.ok fs => Except.ok { t with filters := t.filters ++ fs }

/-- Modelled from the spec: the currently visible column indices, in header
order, excluding hidden columns. -/
def Table.visibleCols (t : Table) : List Nat :=
  (List.range t.header.length).filter (fun i => !t.hiddenColumns.contains i)

/-- Modelled from the spec: the rendered header holds only visible columns. -/
def Table.renderHeader (t : Table) : List String :=
  t.visibleCols.map (fun i => t.header.getD i "")

/-- Modelled from the spec: one rendered row holds the display text of the
visible columns only. -/
def Table.renderRow (t : Table) (r : Row) : List String :=
  t.visibleCols.map (fun i => (r.getD i defaultCell).displayText)

/-- Modelled from the spec: the currently visible rows, i.e. the rows that
are not hidden by index and that pass every configured filter. -/
def Table.visibleRows (t : Table) : List Row :=
  (t.rows.enum.filter (fun p => !t.hiddenRows.contains p.1 && rowPasses t.filters p.2)).map Prod.snd

/-- Modelled from the spec: the plain rendering, a header line followed by
one line per visible row, each restricted to the visible columns. -/
def Table.renderTable (t : Table) : List (List String) :=
  t.renderHeader :: t.visibleRows.map (fun r => t.renderRow r)

/-- Sort-key comparison value of one cell: numeric columns compare by the
canonical numeric value, text columns compare lexically by display text. -/
inductive KeyVal where
  | num (n : Int)
  | str (s : String)
deriving DecidableEq, Repr

/-- Strict comparison on key values.  The heterogeneous cases cannot arise
in a sort (numericness is decided per column) but are fixed to keep the
relation total: every numeric value sorts before every string. -/
def keyValLt : KeyVal → KeyVal → Bool
  | KeyVal.num a, KeyVal.num b => decide (a < b)
  | KeyVal.str a, KeyVal.str b => strLt a b
  | KeyVal.num _, KeyVal.str _ => true
  | KeyVal.str _, KeyVal.num _ => false

/-- Modelled from the spec: a resolved sort key, a stable column index plus
the `!`-direction and whether that column compares numerically. -/
structure RKey where
  col : Nat
  desc : Bool
  numeric : Bool
deriving DecidableEq, Repr

/-- Modelled from the spec: a column's cells are numeric when every row
holds a numeric cell at that column. -/
def colIsNumeric (rows : List Row) (c : Nat) : Bool :=
  rows.all (fun r => (r.getD c defaultCell).isNumeric)

/-- Key value of a cell under a column numericness decision. -/
def cellKeyVal (numeric : Bool) (c : Cell) : KeyVal :=
  if numeric then KeyVal.num c.numericValue else KeyVal.str c.displayText

/-- Strict order of two rows under one key; a descending key flips it. -/
def keyLt (k : RKey) (r1 r2 : Row) : Bool :=
  let a := cellKeyVal k.numeric (r1.getD k.col defaultCell)
  let b := cellKeyVal k.numeric (r2.getD k.col defaultCell)
  if k.desc then keyValLt b a else keyValLt a b

/-- Equivalence of two rows under one key (direction-independent). -/
def keyEqv (k : RKey) (r1 r2 : Row) : Bool :=
  cellKeyVal k.numeric (r1.getD k.col defaultCell) ==
    cellKeyVal k.numeric (r2.getD k.col defaultCell)

/-- Modelled from the spec: multi-key strict order, keys applied in priority
order, falling through to the next key on ties. -/
def lexLt : List RKey → Row → Row → Bool
  | [], _, _ => false
  | k :: ks, a, b => keyLt k a b || (keyEqv k a b && lexLt ks a b)

/-- Multi-key equivalence: the rows tie under every key. -/
def lexEqv : List RKey → Row → Row → Bool
  | [], _, _ => true
  | k :: ks, a, b => keyEqv k a b && lexEqv ks a b

/-- Modelled from the spec: resolve each sort-key name, where a leading `!`
requests descending order and an unknown column name is `UnknownColumn`. -/
def resolveSortKeys (t : Table) : List String → Except TableError (List RKey)
  | [] => Except.ok []
  | n :: ns =>
    let desc := strHasPre n "!"
    let base := if desc then strDrop n 1 else n
    match findColumnIdx t.header base with
    | none => Except.error TableError.UnknownColumn
    | some c =>
      match resolveSortKeys t ns with
      | Except.error e => Except.error e
      | Except.ok ks => Except.ok ({ col := c, desc := desc, numeric := colIsNumeric t.rows c } :: ks)

/-- Total preorder used by the stable sort: the multi-key order on the rows
with the original insertion index as the final tiebreak. -/
def pairLE (ks : List RKey) (a b : Nat × Row) : Prop :=
  lexLt ks a.2 b.2 = true ∨ (lexEqv ks a.2 b.2 = true ∧ a.1 ≤ b.1)

instance (ks : List RKey) : DecidableRel (pairLE ks) := by
  intro a b
  unfold pairLE
  infer_instance

/-- Modelled from the spec: stable multi-key sort of the row list, realised
by sorting index/row pairs under `pairLE`. -/
def sortRows (ks : List RKey) (rows : List Row) : List Row :=
  (rows.enum.insertionSort (pairLE ks)).map Prod.snd

/-- Modelled from the spec: resolve the key names and sort the rows; an
unknown column name yields `UnknownColumn` and leaves the table alone. -/
def Table.SortByNames (t : Table) (names : List String) : Except TableError Table :=
  match resolveSortKeys t names with
  | Except.error e => Except.error e
  | Except.ok ks => Except.ok { t with rows := sortRows ks t.rows }

/-- Modelled from the spec: the indices of the rows whose numeric value in
the given column lies outside the band mean ± 2·standard-deviation.  With
`n` the count, `S` the sum and `d i = n * v i - S` (the deviation from the
mean scaled by `n`), the test `(v - mean)^2 > 4 * variance` is equivalent
to the exact integer inequality `n * d i ^ 2 > 4 * (sum of d j ^ 2)`,
avoiding both square roots and rational arithmetic. -/
def outlierIndices (vals : List Int) : List Nat :=
  let n : Int := (vals.length : Int)
  let s : Int := vals.foldl (fun a v => a + v) 0
  let q : Int := vals.foldl (fun a v => a + (n * v - s) * (n * v - s)) 0
  ((vals.enum).filter (fun p => 4 * q < n * ((n * p.2 - s) * (n * p.2 - s)))).map Prod.fst

/-- Modelled from the spec: compute the outlier row indices over the numeric
values of one column across the supplied rows; an out-of-range column
index is the validation error `InvalidColumnIndex`. -/
def Table.ListOutOfRange (t : Table) (col : Nat) (rows : List Row) : Except TableError (List Nat) :=
  if col < t.header.length then
    Except.ok (outlierIndices (rows.map (fun r => (r.getD col defaultCell).numericValue)))
  else
    Except.error TableError.InvalidColumnIndex

/-!
Domain model: the slice of the Kubernetes API types that the inspected
source reads, plus the command-layer glue.
-/

/-- A timestamp as the embedding sees it: the already-formatted timestamp
string together with the human-readable age string.  The source derives
both from a `time.Time` and the wall clock (`Format`, `time.Since`,
`duration.HumanDuration`); the wall clock is outside the embedding, so the
two rendered strings are carried as data. -/
structure KTime where
  formatted : String := ""
  age : String := ""
deriving DecidableEq, Repr

/-- Waiting container state (`v1.ContainerStateWaiting`). -/
structure ContainerStateWaiting where
  reason : String := ""
  message : String := ""
deriving DecidableEq, Repr

/-- Terminated container state (`v1.ContainerStateTerminated`). -/
structure ContainerStateTerminated where
  exitCode : Int := 0
  signal : Int := 0
  reason : String := ""
  message : String := ""
  startedAt : KTime := {}
deriving DecidableEq, Repr

/-- Running container state (`v1.ContainerStateRunning`). -/
structure ContainerStateRunning where
  startedAt : KTime := {}
deriving DecidableEq, Repr

/-- Container state (`v1.ContainerState`): three nullable sub-states, which
the source probes sequentially with nil checks. -/
structure ContainerState where
  waiting : Option ContainerStateWaiting := none
  terminated : Option ContainerStateTerminated := none
  running : Option ContainerStateRunning := none
deriving DecidableEq, Repr

/-- Container status (`v1.ContainerStatus`), the fields the source reads. -/
structure ContainerStatus where
  name : String := ""
  ready : Bool := false
  started : Option Bool := none
  restartCount : Int := 0
  state : ContainerState := {}
  lastTerminationState : ContainerState := {}
deriving DecidableEq, Repr

/-- HTTP get probe action; the port is carried already rendered by
`portAsString` (an `intstr` helper outside the inspected files). -/
structure HTTPGetAction where
  scheme : String := ""
  host : String := ""
  port : String := ""
  path : String := ""
deriving DecidableEq, Repr

/-- GRPC probe action (`v1.GRPCAction`): a nullable service name pointer
and a port. -/
structure GRPCAction where
  service : Option String := none
  port : Int := 0
deriving DecidableEq, Repr

/-- TCP socket probe action; the port is carried already rendered. -/
structure TCPSocketAction where
  host : String := ""
  port : String := ""
deriving DecidableEq, Repr

/-- Probe (`v1.Probe`): four nullable actions plus the numeric settings. -/
structure Probe where
  exec : Option (List String) := none
  httpGet : Option HTTPGetAction := none
  grpc : Option GRPCAction := none
  tcpSocket : Option TCPSocketAction := none
  initialDelaySeconds : Int := 0
  periodSeconds : Int := 0
  timeoutSeconds : Int := 0
  successThreshold : Int := 0
  failureThreshold : Int := 0
deriving DecidableEq, Repr

/-- Spec-level container (`v1.Container`), the fields the probes code reads. -/
structure Container where
  name : String := ""
  livenessProbe : Option Probe := none
  readinessProbe : Option Probe := none
  startupProbe : Option Probe := none
deriving DecidableEq, Repr

/-- Pod (`v1.Pod`), the fields the status/probes commands read. -/
structure Pod where
  name : String := ""
  nspace : String := ""
  nodeName : String := ""
  phase : String := ""
  reason : String := ""
  startTime : Option KTime := none
  containerStatuses : List ContainerStatus := []
  initContainerStatuses : List ContainerStatus := []
  ephemeralContainerStatuses : List ContainerStatus := []
  specContainers : List Container := []
deriving DecidableEq, Repr

/-- The `containerInfomation` fields the inspected code reads and writes. -/
structure ContainerInfo where
  podName : String := ""
  nspace : String := ""
  nodeName : String := ""
  containerName : String := ""
  containerType : String := ""
  treeView : Bool := false
deriving DecidableEq, Repr

/-- The common command flags the inspected code consumes. -/
structure CommonFlags where
  filterList : List String := []
  sortList : List String := []
  showOddities : Bool := false
  showDetails : Bool := false
  showPodName : Bool := true
  containerNameFilter : Option String := none
deriving DecidableEq, Repr

/-- Modelled from the spec: `skipContainerName` (outside the inspected
files) skips a container when a container name was requested with `-c`
and this container's name differs. -/
def skipContainerName (f : CommonFlags) (name : String) : Bool :=
  match f.containerNameFilter with
  | none => false
  | some c => !(c == name)

/-- Modelled from the spec: `GetDefaultHead` (outside the inspected files).
In tree view the defaults are NAMESPACE and NODE (the source comment on
the tree branch lists them before the appended NAME column).  In flat view
the default header has four columns ending in PODNAME and CONTAINER: the
spec states that the outlier pass of `status` runs on the restart-count
column, and the source passes the absolute column index 6 to
`ListOutOfRange`, which is the RESTARTS column exactly when the default
header length is 4. -/
def GetDefaultHead (treeView : Bool) : List String :=
  if treeView then ["NAMESPACE", "NODE"] else ["T", "NAMESPACE", "PODNAME", "CONTAINER"]

/-- Modelled from the spec: `GetDefaultCells` (outside the inspected files)
produces one text cell per default header column from the pod/container
information, mirroring `GetDefaultHead`. -/
def GetDefaultCells (info : ContainerInfo) : List Cell :=
  if info.treeView then
    [NewCellText info.nspace, NewCellText info.nodeName]
  else
    [NewCellText info.containerType, NewCellText info.nspace,
     NewCellText info.podName, NewCellText info.containerName]

/-- Modelled from the source's commented-out expansion of `ApplyRow`: the
default cells are prepended and the full row is added with `AddRow`; a
row-length mismatch leaves the table unchanged. -/
def ApplyRow (info : ContainerInfo) (t : Table) (cells : List Cell) : Table :=
  match t.AddRow (GetDefaultCells info ++ cells) with
  | Except.ok t2 => t2
  | Except.error _ => t

/-- Modelled from the spec: `SetVisibleColumns` (outside the inspected
files) issues column-hide requests on the default columns driven by the
display mode; the spec fixes no concrete indices and no claim depends on
them, so it is carried as the identity overlay here. -/
def SetVisibleColumns (t : Table) (_f : CommonFlags) : Table :=
  t

/-- Translated from the source: removes the `container=<name>` word and any
`pod=<podname>_` prefixed word from a status message. -/
def trimStatusMessage (message podName containerName : String) : String :=
  if message.data.length ≤ 0 then ""
  else if podName.data.length ≤ 0 then ""
  else if containerName.data.length ≤ 0 then ""
  else
    let strArray := strSplitOn message " "
    let newMessage := strArray.foldl (fun acc v =>
      if ("container=" ++ containerName) == v then acc
      else if strHasPre v ("pod=" ++ podName ++ "_") then acc
      else acc ++ " " ++ v) ""
    strTrim newMessage

/-- Translated from the source: the status row of one container.  The Go
body mutates locals across three sequential nil checks (waiting,
terminated, running); the shadowing lets below reproduce that order. -/
def statusBuildRow (container : ContainerStatus) (info : ContainerInfo)
    (showPrevious : Bool) : List Cell :=
  let state := if showPrevious then container.lastTerminationState else container.state
  let (strState, reason, message, skipAgeCalculation) :=
    match state.waiting with
    | some w => ("Waiting", w.reason, w.message, true)
    | none => ("", "", "", false)
  let (strState, exitCode, rawExitCode, signal, rawSignal, startTime, startedAt, reason, message) :=
    match state.terminated with
    | some term =>
      ("Terminated", toString term.exitCode, term.exitCode, toString term.signal,
       term.signal, term.startedAt, term.startedAt.formatted, term.reason, term.message)
    | none => (strState, "", (0 : Int), "", (0 : Int), ({} : KTime), "", reason, message)
  let (strState, startedAt, startTime) :=
    match state.running with
    | some r => ("Running", r.startedAt.formatted, r.startedAt)
    | none => (strState, startedAt, startTime)
  let started :=
    match container.started with
    | some b => toString b
    | none => ""
  let ready := toString container.ready
  let restarts := toString container.restartCount
  let rawRestarts := container.restartCount
  let message := trimStatusMessage message info.podName info.containerName
  let age := if skipAgeCalculation then "" else startTime.age
  let treeCells : List Cell :=
    if info.treeView then
      let namePre :=
        if info.containerType == "S" then "Container/"
        else if info.containerType == "I" then "InitContainer/"
        else if info.containerType == "E" then "EphemeralContainer/"
        else ""
      [NewCellText ("└─" ++ namePre ++ info.containerName)]
    else []
  treeCells ++
    [NewCellText ready,
     NewCellText started,
     NewCellInt restarts rawRestarts,
     NewCellText strState,
     NewCellText reason,
     NewCellInt exitCode rawExitCode,
     NewCellInt signal rawSignal,
     NewCellText startedAt,
     NewCellText age,
     NewCellText message]

/-- Translated from the source: the pod summary line of the tree view. -/
def podStatusBuildRow (pod : Pod) (info : ContainerInfo)
    (_showPrevious : Bool) : List Cell :=
  let (timestamp, age) :=
    match pod.startTime with
    | some t => (t.formatted, t.age)
    | none => ("", "")
  [NewCellText ("Pod/" ++ info.podName),
   NewCellText "",
   NewCellText "",
   NewCellInt "0" 0,
   NewCellText (strTrim pod.phase),
   NewCellText pod.reason,
   NewCellText "",
   NewCellText "",
   NewCellText timestamp,
   NewCellText age,
   NewCellText ""]

/-!
The `status` command pipeline, translated from the source control flow.
-/

/-- The `status`-specific flags. -/
structure StatusOpts where
  common : CommonFlags := {}
  showPrevious : Bool := false
  treeView : Bool := false
deriving DecidableEq, Repr

/-- Translated from the source: the hidden-column ids of `status`, relative
to the default header length. -/
def statusHideIds (treeView showDetails showPrevious : Bool) : List Nat :=
  let hideColumns : List Nat := []
  let hideColumns :=
    if treeView then
      if showDetails then hideColumns ++ [9] else hideColumns ++ [8, 10]
    else
      if showDetails then hideColumns ++ [8] else hideColumns
  let hideColumns := if showPrevious then hideColumns ++ [0, 1, 2] else hideColumns
  if hideColumns.length == 0 then hideColumns ++ [7, 9] else hideColumns

/-- Translated from the source: the `status` header, default columns, the
tree-view NAME column, then the ten status columns. -/
def statusHeader (treeView : Bool) : List String :=
  let tblHead := GetDefaultHead treeView
  let tblHead := if treeView then tblHead ++ ["NAME"] else tblHead
  tblHead ++ ["READY", "STARTED", "RESTARTS", "STATE", "REASON", "EXIT-CODE",
              "SIGNAL", "TIMESTAMP", "AGE", "MESSAGE"]

/-- Translated from the source: header, filters, visible columns and hidden
columns of the `status` table, before any row is appended.  A failing
`SetFilter` propagates immediately. -/
def statusConfigured (opts : StatusOpts) : Except TableError Table :=
  let defaultHeaderLen := (GetDefaultHead opts.treeView).length
  let table : Table := {}
  let table := table.SetHeader (statusHeader opts.treeView)
  match (if opts.common.filterList.length ≥ 1
         then table.SetFilter opts.common.filterList
         else Except.ok table) with
  | Except.error e => Except.error e
  | Except.ok table =>
    let table := SetVisibleColumns table opts.common
    let table := (statusHideIds opts.treeView opts.common.showDetails opts.showPrevious).foldl
      (fun t i => t.HideColumn (defaultHeaderLen + i)) table
    Except.ok table

/-- The container information as `status` loads it from a pod. -/
def statusInfo (opts : StatusOpts) (pod : Pod) : ContainerInfo :=
  { podName := pod.name, nspace := pod.nspace, nodeName := pod.nodeName,
    treeView := opts.treeView }

/-- Translated from the source: one `status` container loop over a status
list, applying one row per non-skipped container. -/
def statusContainerFold (opts : StatusOpts) (info0 : ContainerInfo) (ctype : String)
    (cs : List ContainerStatus) (t : Table) : Table :=
  cs.foldl (fun t c =>
    if skipContainerName opts.common c.name then t
    else
      let info := { info0 with containerType := ctype, containerName := c.name }
      ApplyRow info t (statusBuildRow c info opts.showPrevious)) t

/-- Translated from the source: the rows contributed by one pod, a tree-view
pod line followed by the standard, init and ephemeral container lines. -/
def statusAddPod (opts : StatusOpts) (t : Table) (pod : Pod) : Table :=
  let info0 := statusInfo opts pod
  let t :=
    if opts.treeView then ApplyRow info0 t (podStatusBuildRow pod info0 opts.showPrevious)
    else t
  let t := statusContainerFold opts info0 "S" pod.containerStatuses t
  let t := statusContainerFold opts info0 "I" pod.initContainerStatuses t
  statusContainerFold opts info0 "E" pod.ephemeralContainerStatuses t

/-- The configured `status` table with all pod rows appended. -/
def statusWithRows (opts : StatusOpts) (pods : List Pod) : Except TableError Table :=
  match statusConfigured opts with
  | Except.error e => Except.error e
  | Except.ok t => Except.ok (pods.foldl (statusAddPod opts) t)

/-- Translated from the source: outside tree view the table is sorted by
the requested sort list; a failing sort propagates immediately. -/
def statusAfterSort (opts : StatusOpts) (pods : List Pod) : Except TableError Table :=
  match statusWithRows opts pods with
  | Except.error e => Except.error e
  | Except.ok table =>
    if !opts.treeView then table.SortByNames opts.common.sortList
    else Except.ok table

/-- Translated from the source: outside tree view, when `previous` is off
and oddities mode is on, the restart-count outliers over the full row set
are computed and the returned row indices hidden. -/
def statusFinalTable (opts : StatusOpts) (pods : List Pod) : Except TableError Table :=
  match statusAfterSort opts pods with
  | Except.error e => Except.error e
  | Except.ok table =>
    if !opts.treeView then
      if !opts.showPrevious then
        if opts.common.showOddities then
          match table.ListOutOfRange 6 table.GetRows with
          | Except.error e => Except.error e
          | Except.ok row2Remove => Except.ok (table.HideRows row2Remove)
        else Except.ok table
      else Except.ok table
    else Except.ok table

/-- The rendered `status` output, or the first configuration error. -/
def statusRun (opts : StatusOpts) (pods : List Pod) :
    Except TableError (List (List String)) :=
  match statusFinalTable opts pods with
  | Except.error e => Except.error e
  | Except.ok t => Except.ok t.renderTable

/-- Everything `status` writes to the output stream: nothing on an error,
the single rendered table otherwise. -/
def statusOutputs (opts : StatusOpts) (pods : List Pod) : List (List (List String)) :=
  match statusFinalTable opts pods with
  | Except.error _ => []
  | Except.ok t => [t.renderTable]

/-!
The `probes` command helpers and pipeline, translated from the source.
-/

/-- One entry of the probe action list (`probeAction` in the source). -/
structure ProbeActionRec where
  probeName : String := ""
  actionName : String := ""
  action : String := ""
  probe : Probe := {}
deriving DecidableEq, Repr

/-- Go `strings.Join` with a single-space separator. -/
def joinSpace : List String → String
  | [] => ""
  | x :: xs => xs.foldl (fun a s => a ++ " " ++ s) x

/-- Translated from the source: the TCPSocket tail of `buildProbeAction`. -/
def tcpStage (probeList : List ProbeActionRec) (item : ProbeActionRec)
    (probe : Probe) : List ProbeActionRec :=
  match probe.tcpSocket with
  | some tp =>
    let actionStr := if tp.host.data.length > 0 then tp.host else ""
    let actionStr := actionStr ++ tp.port
    let item := { item with actionName := "TCPSocket", action := actionStr }
    probeList ++ [item]
  | none => probeList

/-- Translated from the source: turn one probe into its action list.  The
`item` record is shared and mutated across the four branches exactly as in
the Go body.  The GRPC branch of the source reads `*probe.GRPC.Service`
under the test `probe.GRPC.Service == nil`: dereferencing the nil pointer;
`none` models that runtime panic.  When the service pointer is non-nil the
assignment is skipped, so the service name never reaches the action. -/
def buildProbeAction (name : String) (probe : Probe) : Option (List ProbeActionRec) :=
  let item : ProbeActionRec := { probeName := name, probe := probe }
  let probeList : List ProbeActionRec := []
  let (probeList, item) :=
    match probe.exec with
    | some cmd =>
      let item := { item with actionName := "Exec", action := joinSpace cmd }
      (probeList ++ [item], item)
    | none => (probeList, item)
  let (probeList, item) :=
    match probe.httpGet with
    | some p =>
      let actionStr := if p.scheme.data.length > 0 then strLower p.scheme ++ "://" else ""
      let actionStr := if p.host.data.length > 0 then actionStr ++ p.host else actionStr
      let actionStr := actionStr ++ p.port
      let actionStr := if p.path.data.length > 0 then actionStr ++ p.path else actionStr
      let item := { item with actionName := "HTTPGet", action := actionStr }
      (probeList ++ [item], item)
    | none => (probeList, item)
  match probe.grpc with
  | some g =>
    match g.service with
    | none => none
    | some _ =>
      let act := item.action ++ (if g.port > 0 then ":" ++ toString g.port else "")
      let item := { item with actionName := "GRPC", action := act }
      some (tcpStage (probeList ++ [item]) item probe)
  | none => some (tcpStage probeList item probe)

/-- Translated from the source: collect the actions of the liveness,
readiness and startup probes of a container.  The Go version stores them
in a `map[string][]probeAction` whose iteration order is unspecified; the
association list keeps the three keys in insertion order.  Note the
source passes the name `"liveness"` for the startup probe. -/
def buildProbeList (container : Container) : Option (List (String × List ProbeActionRec)) :=
  let probes : List (String × List ProbeActionRec) := []
  match (match container.livenessProbe with
         | some p => (buildProbeAction "liveness" p).map (fun a => probes ++ [("liveness", a)])
         | none => some probes) with
  | none => none
  | some probes =>
    match (match container.readinessProbe with
           | some p => (buildProbeAction "readiness" p).map (fun a => probes ++ [("readiness", a)])
           | none => some probes) with
    | none => none
    | some probes =>
      match container.startupProbe with
      | some p => (buildProbeAction "liveness" p).map (fun a => probes ++ [("startup", a)])
      | none => some probes

/-- Modelled from the spec: `buildTreeCell` (outside the inspected files)
adds the tree-view NAME cell for a container row. -/
def buildTreeCell (info : ContainerInfo) (cellList : List Cell) : List Cell :=
  cellList ++ [NewCellText ("└─" ++ info.containerName)]

/-- Translated from the source: one `probes` output row, the probe name,
five numeric settings, then the check kind and the action string. -/
def probesBuildRow (info : ContainerInfo) (action : ProbeActionRec) : List Cell :=
  let cellList : List Cell := []
  let cellList := if info.treeView then buildTreeCell info cellList else cellList
  cellList ++
    [NewCellText action.probeName,
     NewCellInt (toString action.probe.initialDelaySeconds) action.probe.initialDelaySeconds,
     NewCellInt (toString action.probe.periodSeconds) action.probe.periodSeconds,
     NewCellInt (toString action.probe.timeoutSeconds) action.probe.timeoutSeconds,
     NewCellInt (toString action.probe.successThreshold) action.probe.successThreshold,
     NewCellInt (toString action.probe.failureThreshold) action.probe.failureThreshold,
     NewCellText action.actionName,
     NewCellText action.action]

/-- Translated from the source: the tree-view pod line of `probes`. -/
def podProbesBuildRow (_pod : Pod) (info : ContainerInfo) : List Cell :=
  [NewCellText ("Pod/" ++ info.podName),
   NewCellText "", NewCellText "", NewCellText "", NewCellText "",
   NewCellText "", NewCellText "", NewCellText "", NewCellText ""]

/-- The `probes`-specific flags. -/
structure ProbesOpts where
  common : CommonFlags := {}
  treeView : Bool := false
deriving DecidableEq, Repr

/-- Translated from the source: the `probes` header. -/
def probesHeader (treeView : Bool) : List String :=
  let tblHead := GetDefaultHead treeView
  let tblHead := if treeView then tblHead ++ ["NAME"] else tblHead
  tblHead ++ ["PROBE", "DELAY", "PERIOD", "TIMEOUT", "SUCCESS", "FAILURE", "CHECK", "ACTION"]

/-- Translated from the source: header, filters and visible columns of the
`probes` table; a failing `SetFilter` propagates immediately. -/
def probesConfigured (opts : ProbesOpts) : Except TableError Table :=
  let table : Table := {}
  let table := table.SetHeader (probesHeader opts.treeView)
  match (if opts.common.filterList.length ≥ 1
         then table.SetFilter opts.common.filterList
         else Except.ok table) with
  | Except.error e => Except.error e
  | Except.ok table => Except.ok (SetVisibleColumns table opts.common)

/-- Translated from the source: the `probes` rows of one container; `none`
models a panic escaping `buildProbeAction`. -/
def probesAddContainer (opts : ProbesOpts) (info0 : ContainerInfo) (t : Table)
    (c : Container) : Option Table :=
  if skipContainerName opts.common c.name then some t
  else
    let info := { info0 with containerType := "S", containerName := c.name }
    match buildProbeList c with
    | none => none
    | some probeList =>
      some (probeList.foldl
        (fun t kv => kv.2.foldl (fun t action => ApplyRow info t (probesBuildRow info action)) t) t)

/-- Translated from the source: the `probes` rows of one pod; outside tree
view the container-type column is force-hidden instead. -/
def probesAddPod (opts : ProbesOpts) (t : Table) (pod : Pod) : Option Table :=
  let info0 : ContainerInfo :=
    { podName := pod.name, nspace := pod.nspace, nodeName := pod.nodeName,
      treeView := opts.treeView }
  let t :=
    if opts.treeView then ApplyRow info0 t (podProbesBuildRow pod info0)
    else t.HideColumn 0
  pod.specContainers.foldlM (probesAddContainer opts info0) t

/-- Translated from the source: the full `probes` pipeline; the outer
`Option` models a panic, the inner `Except` the validation errors. -/
def probesFinalTable (opts : ProbesOpts) (pods : List Pod) :
    Option (Except TableError Table) :=
  match probesConfigured opts with
  | Except.error e => some (Except.error e)
  | Except.ok t =>
    match pods.foldlM (probesAddPod opts) t with
    | none => none
    | some t2 => some (t2.SortByNames opts.common.sortList)

/-- Everything `probes` writes to the output stream: nothing on an error or
panic, the single rendered table otherwise. -/
def probesOutputs (opts : ProbesOpts) (pods : List Pod) : List (List (List String)) :=
  match probesFinalTable opts pods with
  | none => []
  | some (Except.error _) => []
  | some (Except.ok t) => [t.renderTable]

/-!
Order-theoretic facts about the comparators, building up to the stable
multi-key sort theorem.
-/

theorem charListLt_irrefl : ∀ l : List Char, charListLt l l = false
  | [] => rfl
  | c :: l => by
    simp [charListLt, charListLt_irrefl l]

theorem char_eq_of_toNat_eq {a b : Char} (h : a.toNat = b.toNat) : a = b := by
  apply Char.eq_of_val_eq
  apply UInt32.eq_of_toBitVec_eq
  exact BitVec.eq_of_toNat_eq h

theorem charListLt_trans : ∀ {a b c : List Char},
    charListLt a b = true → charListLt b c = true → charListLt a c = true
  | [], _ :: _, _ :: _, _, _ => rfl
  | x :: a, y :: b, z :: c, h1, h2 => by
    simp only [charListLt, Bool.or_eq_true, Bool.and_eq_true, decide_eq_true_eq] at h1 h2 ⊢
    rcases h1 with h1 | ⟨h1e, h1r⟩ <;> rcases h2 with h2 | ⟨h2e, h2r⟩
    · exact Or.inl (Nat.lt_trans h1 h2)
    · exact Or.inl (h2e ▸ h1)
    · exact Or.inl (h1e ▸ h2)
    · exact Or.inr ⟨h1e.trans h2e, charListLt_trans h1r h2r⟩

theorem charListLt_antisymm : ∀ {a b : List Char},
    charListLt a b = false → charListLt b a = false → a = b
  | [], [], _, _ => rfl
  | [], _ :: _, h1, _ => by simp [charListLt] at h1
  | _ :: _, [], _, h2 => by simp [charListLt] at h2
  | x :: a, y :: b, h1, h2 => by
    simp only [charListLt, Bool.or_eq_false_iff, Bool.and_eq_false_iff,
      decide_eq_false_iff_not, Nat.not_lt] at h1 h2
    obtain ⟨h1a, h1b⟩ := h1
    obtain ⟨h2a, h2b⟩ := h2
    have hxy : x.toNat = y.toNat := Nat.le_antisymm h2a h1a
    have hx : x = y := char_eq_of_toNat_eq hxy
    rcases h1b with h1b | h1b
    · exact absurd hxy h1b
    · rcases h2b with h2b | h2b
      · exact absurd hxy.symm h2b
      · exact hx ▸ congrArg (x :: ·) (charListLt_antisymm h1b h2b)

theorem strLt_irrefl (s : String) : strLt s s = false :=
  charListLt_irrefl s.data

theorem strLt_trans {a b c : String} (h1 : strLt a b = true) (h2 : strLt b c = true) :
    strLt a c = true :=
  charListLt_trans h1 h2

theorem strLt_antisymm {a b : String} (h1 : strLt a b = false) (h2 : strLt b a = false) :
    a = b := by
  cases a
  cases b
  exact congrArg String.mk (charListLt_antisymm h1 h2)

theorem keyValLt_irrefl (a : KeyVal) : keyValLt a a = false := by
  cases a with
  | num n => simp [keyValLt]
  | str s => simp [keyValLt, strLt_irrefl]

theorem keyValLt_trans : ∀ {a b c : KeyVal},
    keyValLt a b = true → keyValLt b c = true → keyValLt a c = true
  | KeyVal.num _, KeyVal.num _, KeyVal.num _, h1, h2 => by
    simp only [keyValLt, decide_eq_true_eq] at h1 h2 ⊢
    omega
  | KeyVal.num _, KeyVal.num _, KeyVal.str _, _, _ => rfl
  | KeyVal.num _, KeyVal.str _, KeyVal.str _, _, _ => rfl
  | KeyVal.str _, KeyVal.str _, KeyVal.str _, h1, h2 => strLt_trans h1 h2
  | KeyVal.num _, KeyVal.str _, KeyVal.num _, _, h2 => by simp [keyValLt] at h2
  | KeyVal.str _, KeyVal.num _, _, h1, _ => by simp [keyValLt] at h1
  | KeyVal.str _, KeyVal.str _, KeyVal.num _, _, h2 => by simp [keyValLt] at h2

theorem keyValLt_antisymm : ∀ {a b : KeyVal},
    keyValLt a b = false → keyValLt b a = false → a = b
  | KeyVal.num _, KeyVal.num _, h1, h2 => by
    simp only [keyValLt, decide_eq_false_iff_not, Int.not_lt] at h1 h2
    exact congrArg KeyVal.num (Int.le_antisymm h2 h1)
  | KeyVal.str a, KeyVal.str b, h1, h2 =>
    congrArg KeyVal.str (strLt_antisymm h1 h2)
  | KeyVal.num _, KeyVal.str _, h1, _ => by simp [keyValLt] at h1
  | KeyVal.str _, KeyVal.num _, _, h2 => by simp [keyValLt] at h2

/-- The key value a sort key extracts from a row. -/
def kval (k : RKey) (r : Row) : KeyVal :=
  cellKeyVal k.numeric (r.getD k.col defaultCell)

theorem keyLt_eq (k : RKey) (a b : Row) :
    keyLt k a b = if k.desc then keyValLt (kval k b) (kval k a)
                  else keyValLt (kval k a) (kval k b) := rfl

theorem keyEqv_iff {k : RKey} {a b : Row} : keyEqv k a b = true ↔ kval k a = kval k b := by
  simp [keyEqv, kval]

theorem keyEqv_refl (k : RKey) (a : Row) : keyEqv k a a = true :=
  keyEqv_iff.mpr rfl

theorem keyEqv_symm {k : RKey} {a b : Row} (h : keyEqv k a b = true) : keyEqv k b a = true :=
  keyEqv_iff.mpr (keyEqv_iff.mp h).symm

theorem keyEqv_trans {k : RKey} {a b c : Row} (h1 : keyEqv k a b = true)
    (h2 : keyEqv k b c = true) : keyEqv k a c = true :=
  keyEqv_iff.mpr ((keyEqv_iff.mp h1).trans (keyEqv_iff.mp h2))

theorem keyLt_irrefl (k : RKey) (a : Row) : keyLt k a a = false := by
  rw [keyLt_eq]
  cases k.desc <;> simp [keyValLt_irrefl]

theorem keyLt_trans {k : RKey} {a b c : Row} (h1 : keyLt k a b = true)
    (h2 : keyLt k b c = true) : keyLt k a c = true := by
  rw [keyLt_eq] at h1 h2 ⊢
  cases h : k.desc <;> rw [h] at h1 h2 <;> simp at h1 h2
  · exact keyValLt_trans h1 h2
  · exact keyValLt_trans h2 h1

theorem keyEqv_of_not_lt {k : RKey} {a b : Row} (h1 : keyLt k a b = false)
    (h2 : keyLt k b a = false) : keyEqv k a b = true := by
  rw [keyLt_eq] at h1 h2
  apply keyEqv_iff.mpr
  cases h : k.desc <;> rw [h] at h1 h2 <;> simp at h1 h2
  · exact keyValLt_antisymm h1 h2
  · exact keyValLt_antisymm h2 h1

theorem keyEqv_false_of_lt {k : RKey} {a b : Row} (h : keyLt k a b = true) :
    keyEqv k a b = false := by
  by_contra hne
  have he : keyEqv k a b = true := by
    cases hev : keyEqv k a b
    · exact absurd hev hne
    · rfl
  have hv := keyEqv_iff.mp he
  rw [keyLt_eq, hv] at h
  cases hd : k.desc <;> rw [hd] at h <;> simp [keyValLt_irrefl] at h

theorem keyLt_congr_right {k : RKey} {a b c : Row} (h : keyEqv k b c = true) :
    keyLt k a b = keyLt k a c := by
  have hv := keyEqv_iff.mp h
  rw [keyLt_eq, keyLt_eq, hv]

theorem keyLt_congr_left {k : RKey} {a b c : Row} (h : keyEqv k a b = true) :
    keyLt k a c = keyLt k b c := by
  have hv := keyEqv_iff.mp h
  rw [keyLt_eq, keyLt_eq, hv]

theorem lexEqv_refl (ks : List RKey) (a : Row) : lexEqv ks a a = true := by
  induction ks with
  | nil => rfl
  | cons k ks ih => simp [lexEqv, keyEqv_refl, ih]

theorem lexEqv_symm : ∀ {ks : List RKey} {a b : Row},
    lexEqv ks a b = true → lexEqv ks b a = true
  | [], _, _, _ => rfl
  | _ :: _, _, _, h => by
    simp only [lexEqv, Bool.and_eq_true] at h ⊢
    exact ⟨keyEqv_symm h.1, lexEqv_symm h.2⟩

theorem lexEqv_trans : ∀ {ks : List RKey} {a b c : Row},
    lexEqv ks a b = true → lexEqv ks b c = true → lexEqv ks a c = true
  | [], _, _, _, _, _ => rfl
  | _ :: _, _, _, _, h1, h2 => by
    simp only [lexEqv, Bool.and_eq_true] at h1 h2 ⊢
    exact ⟨keyEqv_trans h1.1 h2.1, lexEqv_trans h1.2 h2.2⟩

theorem lexLt_irrefl : ∀ (ks : List RKey) (a : Row), lexLt ks a a = false
  | [], _ => rfl
  | k :: ks, a => by
    simp [lexLt, keyLt_irrefl, lexLt_irrefl ks a]

theorem lexLt_lexEqv_false : ∀ {ks : List RKey} {a b : Row},
    lexLt ks a b = true → lexEqv ks a b = false
  | [], _, _, h => by simp [lexLt] at h
  | k :: ks, a, b, h => by
    simp only [lexLt, Bool.or_eq_true, Bool.and_eq_true] at h
    simp only [lexEqv, Bool.and_eq_false_iff]
    rcases h with h | ⟨he, hr⟩
    · exact Or.inl (keyEqv_false_of_lt h)
    · exact Or.inr (lexLt_lexEqv_false hr)

theorem lexEqv_of_not_lt : ∀ {ks : List RKey} {a b : Row},
    lexLt ks a b = false → lexLt ks b a = false → lexEqv ks a b = true
  | [], _, _, _, _ => rfl
  | k :: ks, a, b, h1, h2 => by
    simp only [lexLt, Bool.or_eq_false_iff, Bool.and_eq_false_iff] at h1 h2
    obtain ⟨h1k, h1r⟩ := h1
    obtain ⟨h2k, h2r⟩ := h2
    have he : keyEqv k a b = true := keyEqv_of_not_lt h1k h2k
    simp only [lexEqv, Bool.and_eq_true]
    refine ⟨he, ?_⟩
    rcases h1r with h1r | h1r
    · exact absurd he (by simp [h1r])
    · rcases h2r with h2r | h2r
      · exact absurd (keyEqv_symm he) (by simp [h2r])
      · exact lexEqv_of_not_lt h1r h2r

theorem lexLt_trans : ∀ {ks : List RKey} {a b c : Row},
    lexLt ks a b = true → lexLt ks b c = true → lexLt ks a c = true
  | [], _, _, _, h, _ => by simp [lexLt] at h
  | k :: ks, a, b, c, h1, h2 => by
    simp only [lexLt, Bool.or_eq_true, Bool.and_eq_true] at h1 h2 ⊢
    rcases h1 with h1 | ⟨h1e, h1r⟩ <;> rcases h2 with h2 | ⟨h2e, h2r⟩
    · exact Or.inl (keyLt_trans h1 h2)
    · exact Or.inl ((keyLt_congr_right h2e) ▸ h1)
    · exact Or.inl ((keyLt_congr_left h1e).symm ▸ h2)
    · exact Or.inr ⟨keyEqv_trans h1e h2e, lexLt_trans h1r h2r⟩

theorem lexLt_of_lt_of_eqv : ∀ {ks : List RKey} {a b c : Row},
    lexLt ks a b = true → lexEqv ks b c = true → lexLt ks a c = true
  | [], _, _, _, h, _ => by simp [lexLt] at h
  | k :: ks, a, b, c, h1, h2 => by
    simp only [lexLt, Bool.or_eq_true, Bool.and_eq_true] at h1 ⊢
    simp only [lexEqv, Bool.and_eq_true] at h2
    rcases h1 with h1 | ⟨h1e, h1r⟩
    · exact Or.inl ((keyLt_congr_right h2.1) ▸ h1)
    · exact Or.inr ⟨keyEqv_trans h1e h2.1, lexLt_of_lt_of_eqv h1r h2.2⟩

theorem lexLt_of_eqv_of_lt : ∀ {ks : List RKey} {a b c : Row},
    lexEqv ks a b = true → lexLt ks b c = true → lexLt ks a c = true
  | [], _, _, _, _, h => by simp [lexLt] at h
  | k :: ks, a, b, c, h1, h2 => by
    simp only [lexLt, Bool.or_eq_true, Bool.and_eq_true] at h2 ⊢
    simp only [lexEqv, Bool.and_eq_true] at h1
    rcases h2 with h2 | ⟨h2e, h2r⟩
    · exact Or.inl ((keyLt_congr_left h1.1).symm ▸ h2)
    · exact Or.inr ⟨keyEqv_trans h1.1 h2e, lexLt_of_eqv_of_lt h1.2 h2r⟩

theorem pairLE_total (ks : List RKey) (a b : Nat × Row) : pairLE ks a b ∨ pairLE ks b a := by
  cases h1 : lexLt ks a.2 b.2
  · cases h2 : lexLt ks b.2 a.2
    · have he := lexEqv_of_not_lt h1 h2
      rcases Nat.le_total a.1 b.1 with hle | hle
      · exact Or.inl (Or.inr ⟨he, hle⟩)
      · exact Or.inr (Or.inr ⟨lexEqv_symm he, hle⟩)
    · exact Or.inr (Or.inl h2)
  · exact Or.inl (Or.inl h1)

theorem pairLE_trans (ks : List RKey) (a b c : Nat × Row)
    (h1 : pairLE ks a b) (h2 : pairLE ks b c) : pairLE ks a c := by
  rcases h1 with h1 | ⟨h1e, h1i⟩ <;> rcases h2 with h2 | ⟨h2e, h2i⟩
  · exact Or.inl (lexLt_trans h1 h2)
  · exact Or.inl (lexLt_of_lt_of_eqv h1 h2e)
  · exact Or.inl (lexLt_of_eqv_of_lt h1e h2)
  · exact Or.inr ⟨lexEqv_trans h1e h2e, Nat.le_trans h1i h2i⟩

theorem pairwise_fst_lt_enumFrom {α : Type} :
    ∀ (l : List α) (n : Nat), (List.enumFrom n l).Pairwise (fun a b => a.1 < b.1)
  | [], _ => List.Pairwise.nil
  | a :: l, n => by
    rw [List.enumFrom_cons]
    refine List.Pairwise.cons ?_ (pairwise_fst_lt_enumFrom l (n + 1))
    intro x hx
    have hx' : (x.1, x.2) ∈ List.enumFrom (n + 1) l := by
      cases x
      exact hx
    exact Nat.lt_of_lt_of_le (Nat.lt_succ_self n) (List.mem_enumFrom hx').1

theorem pairwise_fst_lt_enum {α : Type} (l : List α) :
    l.enum.Pairwise (fun a b => a.1 < b.1) :=
  pairwise_fst_lt_enumFrom l 0

/-- The sorted rows are a permutation of the input rows. -/
theorem sortRows_perm (ks : List RKey) (rows : List Row) : (sortRows ks rows).Perm rows := by
  have h := (List.perm_insertionSort (pairLE ks) rows.enum).map Prod.snd
  rw [List.enum_map_snd] at h
  exact h

/-- The sorted rows are pairwise ordered under the multi-key comparison:
each earlier row is strictly below or tied with each later row. -/
theorem sortRows_sorted (ks : List RKey) (rows : List Row) :
    (sortRows ks rows).Pairwise
      (fun a b => lexLt ks a b = true ∨ lexEqv ks a b = true) := by
  haveI : IsTotal (Nat × Row) (pairLE ks) := ⟨pairLE_total ks⟩
  haveI : IsTrans (Nat × Row) (pairLE ks) := ⟨pairLE_trans ks⟩
  have hs : (rows.enum.insertionSort (pairLE ks)).Pairwise (pairLE ks) :=
    List.sorted_insertionSort (pairLE ks) rows.enum
  rw [sortRows, List.pairwise_map]
  exact hs.imp (fun h => Or.imp_right And.left h)

/-- Stability: restricted to any equivalence class of the multi-key
comparison, the sorted rows appear in exactly their original order. -/
theorem sortRows_stable (ks : List RKey) (rows : List Row) (r : Row) :
    (sortRows ks rows).filter (fun x => lexEqv ks x r) =
      rows.filter (fun x => lexEqv ks x r) := by
  haveI : IsTotal (Nat × Row) (pairLE ks) := ⟨pairLE_total ks⟩
  haveI : IsTrans (Nat × Row) (pairLE ks) := ⟨pairLE_trans ks⟩
  set q : Row → Bool := fun x => lexEqv ks x r with hq
  set s := rows.enum.insertionSort (pairLE ks) with hsdef
  have hperm : s.Perm rows.enum := List.perm_insertionSort (pairLE ks) rows.enum
  have h1 : (sortRows ks rows).filter q = (s.filter (q ∘ Prod.snd)).map Prod.snd := by
    rw [sortRows, List.filter_map]
  have h2 : rows.filter q = (rows.enum.filter (q ∘ Prod.snd)).map Prod.snd := by
    conv_lhs => rw [← List.enum_map_snd rows]
    rw [List.filter_map]
  rw [h1, h2]
  have hkey : s.filter (q ∘ Prod.snd) = rows.enum.filter (q ∘ Prod.snd) := by
    have hpermf : (s.filter (q ∘ Prod.snd)).Perm (rows.enum.filter (q ∘ Prod.snd)) :=
      hperm.filter (q ∘ Prod.snd)
    have hene : rows.enum.Pairwise (fun a b : Nat × Row => a.1 ≠ b.1) :=
      (pairwise_fst_lt_enum rows).imp (fun h => Nat.ne_of_lt h)
    have hsne : s.Pairwise (fun a b : Nat × Row => a.1 ≠ b.1) :=
      (hperm.pairwise_iff (fun h => Ne.symm h)).mpr hene
    have hssorted : s.Pairwise (pairLE ks) := List.sorted_insertionSort (pairLE ks) rows.enum
    have hboth : s.Pairwise (fun a b => pairLE ks a b ∧ a.1 ≠ b.1) := hssorted.and hsne
    have hfilt : (s.filter (q ∘ Prod.snd)).Pairwise (fun a b => pairLE ks a b ∧ a.1 ≠ b.1) :=
      hboth.filter (q ∘ Prod.snd)
    have hslt : (s.filter (q ∘ Prod.snd)).Pairwise (fun a b : Nat × Row => a.1 < b.1) := by
      refine hfilt.imp_of_mem (fun {a b} ha hb hab => ?_)
      have hqa : (q ∘ Prod.snd) a = true := List.of_mem_filter ha
      have hqb : (q ∘ Prod.snd) b = true := List.of_mem_filter hb
      have heqv : lexEqv ks a.2 b.2 = true := lexEqv_trans hqa (lexEqv_symm hqb)
      rcases hab.1 with hlt | ⟨_, hle⟩
      · exact absurd heqv (by simp [lexLt_lexEqv_false hlt])
      · exact Nat.lt_of_le_of_ne hle hab.2
    have helt : (rows.enum.filter (q ∘ Prod.snd)).Pairwise (fun a b : Nat × Row => a.1 < b.1) :=
      (pairwise_fst_lt_enum rows).filter (q ∘ Prod.snd)
    haveI : IsAntisymm (Nat × Row) (fun a b => a.1 < b.1) :=
      ⟨fun a b h1 h2 => absurd (Nat.lt_trans h1 h2) (Nat.lt_irrefl _)⟩
    exact List.eq_of_perm_of_sorted hpermf hslt helt
  rw [hkey]

/-- Decidable equality of `Except` results, for concrete witness checking. -/
instance {e a : Type} [DecidableEq e] [DecidableEq a] : DecidableEq (Except e a) := fun x y =>
  match x, y with
  | Except.ok v, Except.ok w =>
    if h : v = w then isTrue (by rw [h]) else isFalse (by intro hc; cases hc; exact h rfl)
  | Except.error v, Except.error w =>
    if h : v = w then isTrue (by rw [h]) else isFalse (by intro hc; cases hc; exact h rfl)
  | Except.ok _, Except.error _ => isFalse (by intro hc; cases hc)
  | Except.error _, Except.ok _ => isFalse (by intro hc; cases hc)

/-- Claim C2: for every table and accepted sort-key list, `SortByNames`
produces a permutation of the rows that is pairwise ordered under the
multi-key comparison (a `!`-prefixed key descending, numeric columns by
`numericValue`, text columns lexically by `displayText`, keys applied in
priority order falling through on ties) and is stable: rows tied under
every key keep their original insertion order. -/
theorem sortByNames_spec (t t' : Table) (names : List String) (ks : List RKey)
    (hks : resolveSortKeys t names = Except.ok ks)
    (hok : t.SortByNames names = Except.ok t') :
    t'.header = t.header ∧
    t'.rows.Perm t.rows ∧
    t'.rows.Pairwise (fun a b => lexLt ks a b = true ∨ lexEqv ks a b = true) ∧
    (∀ r, t'.rows.filter (fun x => lexEqv ks x r) = t.rows.filter (fun x => lexEqv ks x r)) := by
  unfold Table.SortByNames at hok
  rw [hks] at hok
  cases hok
  exact ⟨rfl, sortRows_perm ks t.rows, sortRows_sorted ks t.rows,
    fun r => sortRows_stable ks t.rows r⟩

/-- Concrete table for the sort witness: one numeric column with display
values "2", "10", "9". -/
def sortW : Table :=
  { header := ["N"], rows := [[NewCellInt "2" 2], [NewCellInt "10" 10], [NewCellInt "9" 9]] }

/-- The expected result of sorting `sortW` ascending by N: 2, 9, 10. -/
def sortWres : Table :=
  { header := ["N"], rows := [[NewCellInt "2" 2], [NewCellInt "9" 9], [NewCellInt "10" 10]] }

/-- The resolved sort key of the witness. -/
def sortWkey : RKey := { col := 0, desc := false, numeric := true }

/-- Witness for claim C2 at the spec example: the numeric column sorts
ascending as 2, 9, 10 rather than lexically. -/
theorem sortByNames_spec_witness :
    resolveSortKeys sortW ["N"] = Except.ok [sortWkey] ∧
    Table.SortByNames sortW ["N"] = Except.ok sortWres ∧
    sortWres.header = sortW.header ∧
    sortWres.rows.Perm sortW.rows ∧
    sortWres.rows.Pairwise
      (fun a b => lexLt [sortWkey] a b = true ∨ lexEqv [sortWkey] a b = true) ∧
    sortWres.rows.filter (fun x => lexEqv [sortWkey] x [NewCellInt "9" 9]) =
      sortW.rows.filter (fun x => lexEqv [sortWkey] x [NewCellInt "9" 9]) := by
  have h := sortByNames_spec sortW sortWres ["N"] [sortWkey] (by decide) (by decide)
  exact ⟨by decide, by decide, h.1, h.2.1, h.2.2.1, h.2.2.2 [NewCellInt "9" 9]⟩

/-- Claim C4: `AddRow` rejects a cell sequence whose length differs from
the header length with `RowLengthMismatch` (producing no new table state),
and appends the row otherwise. -/
theorem addRow_spec (t : Table) (cells : List Cell) :
    (cells.length ≠ t.header.length →
      t.AddRow cells = Except.error TableError.RowLengthMismatch) ∧
    (cells.length = t.header.length →
      t.AddRow cells = Except.ok { t with rows := t.rows ++ [cells] }) := by
  constructor <;> intro h <;> simp [Table.AddRow, h]

/-- Witness for claim C4: a one-column table rejects an empty row and
appends a matching one. -/
theorem addRow_spec_witness :
    Table.AddRow { header := ["A"] } [] = Except.error TableError.RowLengthMismatch ∧
    Table.AddRow { header := ["A"] } [NewCellText "x"] =
      Except.ok { header := ["A"], rows := [[NewCellText "x"]] } := by
  constructor
  · exact (addRow_spec { header := ["A"] } []).1 (by decide)
  · have h := (addRow_spec { header := ["A"] } [NewCellText "x"]).2 (by decide)
    simpa using h

theorem mem_visibleCols {t : Table} {j : Nat} (h : j ∈ t.visibleCols) :
    j < t.header.length ∧ t.hiddenColumns.contains j = false := by
  unfold Table.visibleCols at h
  have hm := List.mem_filter.mp h
  refine ⟨List.mem_range.mp hm.1, ?_⟩
  have := hm.2
  cases hc : t.hiddenColumns.contains j
  · rfl
  · rw [hc] at this
    simp at this

theorem contains_eq_decide_mem (l : List Nat) (a : Nat) : l.contains a = decide (a ∈ l) := by
  simp [List.contains, List.elem_eq_mem]

theorem visibleCols_hideColumn (t : Table) (i : Nat) :
    (t.HideColumn i).visibleCols = t.visibleCols.filter (fun j => j ≠ i) := by
  unfold Table.HideColumn
  by_cases hlen : i < t.header.length
  · rw [if_pos hlen]
    cases hc : t.hiddenColumns.contains i
    · rw [if_neg (by simp [hc])]
      unfold Table.visibleCols
      rw [List.filter_filter]
      apply List.filter_congr
      intro j hj
      rw [contains_eq_decide_mem, contains_eq_decide_mem]
      by_cases hji : j = i
      · subst hji
        simp [List.mem_append]
      · simp [List.mem_append, hji]
    · rw [if_pos rfl]
      symm
      apply List.filter_eq_self.mpr
      intro j hj
      have hmem := mem_visibleCols hj
      have hne : j ≠ i := by
        intro he
        rw [he] at hmem
        rw [hc] at hmem
        exact absurd hmem.2 (by simp)
      simp [hne]
  · rw [if_neg hlen]
    symm
    apply List.filter_eq_self.mpr
    intro j hj
    have hmem := mem_visibleCols hj
    have hne : j ≠ i := by
      intro he
      rw [he] at hmem
      exact absurd hmem.1 hlen
    simp [hne]

/-- Claim C5: after `HideColumn i` on a valid index, the rendered header
and every rendered row are computed over the visible columns with `i`
removed, while `GetRows` still returns the full rows unchanged; hiding a
column or hiding rows never deletes the underlying table data. -/
theorem hideColumn_spec (t : Table) (i : Nat) (_h : i < t.header.length) :
    (t.HideColumn i).visibleCols = t.visibleCols.filter (fun j => j ≠ i) ∧
    i ∉ (t.HideColumn i).visibleCols ∧
    (t.HideColumn i).renderHeader =
      (t.visibleCols.filter (fun j => j ≠ i)).map (fun j => t.header.getD j "") ∧
    (∀ r, (t.HideColumn i).renderRow r =
      (t.visibleCols.filter (fun j => j ≠ i)).map (fun j => (r.getD j defaultCell).displayText)) ∧
    (t.HideColumn i).GetRows = t.GetRows ∧
    (t.HideColumn i).rows = t.rows ∧
    (t.HideColumn i).header = t.header ∧
    (∀ js, (t.HideRows js).rows = t.rows ∧ (t.HideRows js).header = t.header) := by
  have hv := visibleCols_hideColumn t i
  have hrows : (t.HideColumn i).rows = t.rows := by
    unfold Table.HideColumn
    by_cases hlen : i < t.header.length
    · rw [if_pos hlen]
      cases hc : t.hiddenColumns.contains i <;> simp [hc]
    · rw [if_neg hlen]
  have hheader : (t.HideColumn i).header = t.header := by
    unfold Table.HideColumn
    by_cases hlen : i < t.header.length
    · rw [if_pos hlen]
      cases hc : t.hiddenColumns.contains i <;> simp [hc]
    · rw [if_neg hlen]
  refine ⟨hv, ?_, ?_, ?_, ?_, hrows, hheader, ?_⟩
  · rw [hv]
    intro hmem
    have := List.mem_filter.mp hmem
    simp at this
  · unfold Table.renderHeader
    rw [hv, hheader]
  · intro r
    unfold Table.renderRow
    rw [hv]
  · unfold Table.GetRows
    exact hrows
  · intro js
    unfold Table.HideRows
    exact ⟨rfl, rfl⟩

/-- Concrete table for the hide-column witness. -/
def hideW : Table :=
  { header := ["A", "B"],
    rows := [[NewCellText "a1", NewCellText "b1"], [NewCellText "a2", NewCellText "b2"]] }

/-- Witness for claim C5: hiding column 1 of a two-column table renders
only column 0 while `GetRows` keeps both cells of every row. -/
theorem hideColumn_spec_witness :
    (hideW.HideColumn 1).renderHeader = ["A"] ∧
    (hideW.HideColumn 1).renderTable = [["A"], ["a1"], ["a2"]] ∧
    (hideW.HideColumn 1).GetRows = hideW.GetRows ∧
    (hideW.HideColumn 1).rows = hideW.rows := by
  have h := hideColumn_spec hideW 1 (by decide)
  refine ⟨?_, by decide, h.2.2.2.2.1, h.2.2.2.2.2.1⟩
  · rw [h.2.2.1]
    decide

/-- Follows the spec's words directly: one filter-expression string keeps a
row when, in the column named by the field (resolved case-insensitively
against the header), the cell's display text equals the value exactly for
`=`, differs for `!=`, or occurs among the listed values for `in`. -/
def exprKeeps (header : List String) (s : String) (r : Row) : Bool :=
  match parseFilterExpr s with
  | none => false
  | some fe =>
    match findColumnIdx header fe.field with
    | none => false
    | some c =>
      match fe.op, fe.values with
      | FilterOp.feq, [v] => (r.getD c defaultCell).displayText == v
      | FilterOp.fneq, [v] => !((r.getD c defaultCell).displayText == v)
      | FilterOp.fin, vs => vs.contains (r.getD c defaultCell).displayText
      | _, _ => false

theorem rfSatisfies_cases (c : Nat) (op : FilterOp) (vals : List String) (r : Row) :
    rfSatisfies { col := c, op := op, values := vals } r =
      (match op, vals with
       | FilterOp.feq, [v] => (r.getD c defaultCell).displayText == v
       | FilterOp.fneq, [v] => !((r.getD c defaultCell).displayText == v)
       | FilterOp.fin, vs => vs.contains (r.getD c defaultCell).displayText
       | _, _ => false) := by
  cases op <;> rcases vals with _ | ⟨v, _ | ⟨w, vs⟩⟩ <;> rfl

theorem resolveFilters_all {header : List String} : ∀ {es : List String} {fs : List RFilter},
    resolveFilters header es = Except.ok fs →
    ∀ r, rowPasses fs r = es.all (fun e => exprKeeps header e r)
  | [], fs, h, r => by
    unfold resolveFilters at h
    cases h
    rfl
  | e :: es, fs, h, r => by
    unfold resolveFilters at h
    cases hp : parseFilterExpr e <;> simp only [hp] at h
    · exact Except.noConfusion h
    case some fe =>
      cases hf : findColumnIdx header fe.field <;> simp only [hf] at h
      · exact Except.noConfusion h
      case some c =>
        cases hr : resolveFilters header es <;> simp only [hr] at h
        · exact Except.noConfusion h
        case ok fs2 =>
          cases h
          have ih := resolveFilters_all hr r
          unfold rowPasses at ih ⊢
          rw [List.all_cons, List.all_cons, ih, rfSatisfies_cases]
          simp only [exprKeeps, hp, hf]

theorem filter_enum_snd (l : List Row) (q : Row → Bool) :
    (l.enum.filter (fun p => q p.2)).map Prod.snd = l.filter q := by
  conv_rhs => rw [← List.enum_map_snd l, List.filter_map]
  rfl

/-- Claim C3: on a freshly configured table, a successful `SetFilter` makes
a row visible exactly when it satisfies every filter expression (AND
semantics), where `field=value` keeps rows whose display text in the
field's column equals the value exactly and `field in (v1,v2,...)` keeps
rows whose cell matches one of the listed values; the rows themselves are
untouched. -/
theorem setFilter_spec (t t' : Table) (es : List String)
    (hfil : t.filters = []) (hhid : t.hiddenRows = [])
    (hok : t.SetFilter es = Except.ok t') :
    t'.rows = t.rows ∧
    t'.header = t.header ∧
    (∀ r, rowPasses t'.filters r = es.all (fun e => exprKeeps t.header e r)) ∧
    t'.visibleRows = t.rows.filter (fun r => es.all (fun e => exprKeeps t.header e r)) := by
  unfold Table.SetFilter at hok
  cases hres : resolveFilters t.header es <;> rw [hres] at hok
  · exact absurd hok (by simp)
  case ok fs =>
    cases hok
    have hpass : ∀ r, rowPasses fs r = es.all (fun e => exprKeeps t.header e r) :=
      resolveFilters_all hres
    have hfs : t.filters ++ fs = fs := by rw [hfil]; rfl
    refine ⟨rfl, rfl, ?_, ?_⟩
    · intro r
      simpa [hfs] using hpass r
    · unfold Table.visibleRows
      simp only [hhid, hfs, List.contains_nil, Bool.not_false, Bool.true_and]
      rw [filter_enum_snd t.rows (rowPasses fs)]
      exact List.filter_congr (fun r _ => hpass r)

/-- Concrete table for the filter witness: a STATE column with three rows. -/
def filterW : Table :=
  { header := ["STATE"],
    rows := [[NewCellText "Running"], [NewCellText "Waiting"], [NewCellText "Done"]] }

/-- The expected table after installing the two witness filters. -/
def filterWres : Table :=
  { header := ["STATE"],
    rows := [[NewCellText "Running"], [NewCellText "Waiting"], [NewCellText "Done"]],
    filters := [{ col := 0, op := FilterOp.fin, values := ["Running", "Waiting"] },
                { col := 0, op := FilterOp.feq, values := ["Running"] }] }

/-- Witness for claim C3: an `in` filter and an `=` filter combine with AND
semantics, keeping exactly the Running row while the stored rows stay
intact. -/
theorem setFilter_spec_witness :
    filterW.SetFilter ["STATE in (Running,Waiting)", "STATE=Running"] = Except.ok filterWres ∧
    filterWres.rows = filterW.rows ∧
    filterWres.visibleRows = [[NewCellText "Running"]] := by
  have h := setFilter_spec filterW filterWres
    ["STATE in (Running,Waiting)", "STATE=Running"] rfl rfl (by decide)
  refine ⟨by decide, h.1, ?_⟩
  rw [h.2.2.2]
  decide

/-!
Shape lemmas for the status pipeline.
-/

theorem hideColumn_fields (t : Table) (i : Nat) :
    (t.HideColumn i).header = t.header ∧ (t.HideColumn i).rows = t.rows ∧
    (t.HideColumn i).hiddenRows = t.hiddenRows ∧ (t.HideColumn i).filters = t.filters := by
  unfold Table.HideColumn
  by_cases hlen : i < t.header.length
  · rw [if_pos hlen]
    cases hc : t.hiddenColumns.contains i <;> simp [hc]
  · rw [if_neg hlen]
    exact ⟨rfl, rfl, rfl, rfl⟩

theorem hideColumn_foldl_fields (d : Nat) (ids : List Nat) :
    ∀ t : Table,
      ((ids.foldl (fun t i => t.HideColumn (d + i)) t).header = t.header ∧
       (ids.foldl (fun t i => t.HideColumn (d + i)) t).rows = t.rows ∧
       (ids.foldl (fun t i => t.HideColumn (d + i)) t).hiddenRows = t.hiddenRows ∧
       (ids.foldl (fun t i => t.HideColumn (d + i)) t).filters = t.filters) := by
  induction ids with
  | nil => intro t; exact ⟨rfl, rfl, rfl, rfl⟩
  | cons i ids ih =>
    intro t
    have h1 := hideColumn_fields t (d + i)
    have h2 := ih (t.HideColumn (d + i))
    rw [List.foldl_cons]
    exact ⟨h2.1.trans h1.1, h2.2.1.trans h1.2.1,
      h2.2.2.1.trans h1.2.2.1, h2.2.2.2.trans h1.2.2.2⟩

theorem setFilter_fields {t t' : Table} {es : List String}
    (h : t.SetFilter es = Except.ok t') :
    t'.header = t.header ∧ t'.rows = t.rows ∧ t'.hiddenRows = t.hiddenRows ∧
    t'.hiddenColumns = t.hiddenColumns := by
  unfold Table.SetFilter at h
  cases hres : resolveFilters t.header es <;> rw [hres] at h
  · exact Except.noConfusion h
  · cases h
    exact ⟨rfl, rfl, rfl, rfl⟩

theorem sortByNames_fields {t t' : Table} {names : List String}
    (h : t.SortByNames names = Except.ok t') :
    t'.header = t.header ∧ t'.hiddenRows = t.hiddenRows ∧
    t'.hiddenColumns = t.hiddenColumns ∧ t'.filters = t.filters := by
  unfold Table.SortByNames at h
  cases hres : resolveSortKeys t names <;> rw [hres] at h
  · exact Except.noConfusion h
  · cases h
    exact ⟨rfl, rfl, rfl, rfl⟩

theorem statusConfigured_shape {opts : StatusOpts} {t : Table}
    (h : statusConfigured opts = Except.ok t) :
    t.header = statusHeader opts.treeView ∧ t.rows = [] ∧ t.hiddenRows = [] := by
  unfold statusConfigured at h
  by_cases hfl : opts.common.filterList.length ≥ 1
  · simp only [hfl, if_true] at h
    cases hsf : Table.SetFilter
        { header := statusHeader opts.treeView, rows := [], hiddenColumns := [],
          hiddenRows := [], filters := [] } opts.common.filterList <;>
      simp only [Table.SetHeader, hsf] at h
    · exact Except.noConfusion h
    next t1 =>
      cases h
      have hf := setFilter_fields hsf
      have hfold := hideColumn_foldl_fields (GetDefaultHead opts.treeView).length
        (statusHideIds opts.treeView opts.common.showDetails opts.showPrevious)
        (SetVisibleColumns t1 opts.common)
      unfold SetVisibleColumns at hfold
      exact ⟨hfold.1.trans hf.1, hfold.2.1.trans hf.2.1, hfold.2.2.1.trans hf.2.2.1⟩
  · simp only [hfl, if_false] at h
    cases h
    have hfold := hideColumn_foldl_fields (GetDefaultHead opts.treeView).length
      (statusHideIds opts.treeView opts.common.showDetails opts.showPrevious)
      (SetVisibleColumns
        { header := statusHeader opts.treeView, rows := [], hiddenColumns := [],
          hiddenRows := [], filters := [] } opts.common)
    unfold SetVisibleColumns at hfold
    exact ⟨hfold.1, hfold.2.1, hfold.2.2.1⟩

theorem applyRow_eq (info : ContainerInfo) (t : Table) (cells : List Cell)
    (h : (GetDefaultCells info ++ cells).length = t.header.length) :
    ApplyRow info t cells = { t with rows := t.rows ++ [GetDefaultCells info ++ cells] } := by
  unfold ApplyRow Table.AddRow
  rw [if_neg (by rw [h]; exact fun hc => hc rfl)]

theorem getDefaultCells_length (info : ContainerInfo) :
    (GetDefaultCells info).length = if info.treeView then 2 else 4 := by
  unfold GetDefaultCells
  cases info.treeView <;> rfl

theorem statusBuildRow_length (c : ContainerStatus) (info : ContainerInfo) (p : Bool) :
    (statusBuildRow c info p).length = if info.treeView then 11 else 10 := by
  unfold statusBuildRow
  cases hw : (if p then c.lastTerminationState else c.state).waiting <;>
    cases ht : (if p then c.lastTerminationState else c.state).terminated <;>
      cases hr : (if p then c.lastTerminationState else c.state).running <;>
        cases hs : c.started <;> cases htv : info.treeView <;> simp [htv]

theorem podStatusBuildRow_length (pod : Pod) (info : ContainerInfo) (p : Bool) :
    (podStatusBuildRow pod info p).length = 11 := by
  unfold podStatusBuildRow
  cases pod.startTime <;> rfl

theorem statusHeader_length (tv : Bool) :
    (statusHeader tv).length = if tv then 13 else 14 := by
  cases tv <;> rfl

/-- The rows one container-status list contributes in `status`. -/
def statusCsRows (opts : StatusOpts) (info0 : ContainerInfo) (ctype : String)
    (cs : List ContainerStatus) : List Row :=
  (cs.filter (fun c => !skipContainerName opts.common c.name)).map (fun c =>
    GetDefaultCells { info0 with containerType := ctype, containerName := c.name } ++
      statusBuildRow c { info0 with containerType := ctype, containerName := c.name }
        opts.showPrevious)

/-- The rows one pod contributes in `status`: the tree-view pod line, then
the standard, init and ephemeral container lines, in source order. -/
def statusPodRowList (opts : StatusOpts) (pod : Pod) : List Row :=
  (if opts.treeView then
    [GetDefaultCells (statusInfo opts pod) ++
      podStatusBuildRow pod (statusInfo opts pod) opts.showPrevious]
   else []) ++
  statusCsRows opts (statusInfo opts pod) "S" pod.containerStatuses ++
  statusCsRows opts (statusInfo opts pod) "I" pod.initContainerStatuses ++
  statusCsRows opts (statusInfo opts pod) "E" pod.ephemeralContainerStatuses

theorem statusContainerFold_eq (opts : StatusOpts) (info0 : ContainerInfo) (ctype : String)
    (htv : info0.treeView = opts.treeView) :
    ∀ (cs : List ContainerStatus) (t : Table),
      t.header.length = (if opts.treeView then 13 else 14) →
      statusContainerFold opts info0 ctype cs t =
        { t with rows := t.rows ++ statusCsRows opts info0 ctype cs } := by
  intro cs
  induction cs with
  | nil =>
    intro t ht
    unfold statusContainerFold statusCsRows
    simp
  | cons c cs ih =>
    intro t ht
    unfold statusContainerFold at ih ⊢
    rw [List.foldl_cons]
    cases hskip : skipContainerName opts.common c.name
    · simp only [Bool.not_false, if_false, if_true, Bool.false_eq_true]
      have hlen : (GetDefaultCells { info0 with containerType := ctype, containerName := c.name } ++
          statusBuildRow c { info0 with containerType := ctype, containerName := c.name }
            opts.showPrevious).length = t.header.length := by
        rw [List.length_append, getDefaultCells_length, statusBuildRow_length, ht]
        simp only [htv]
        cases opts.treeView <;> rfl
      rw [applyRow_eq _ _ _ hlen]
      rw [ih _ (by simp [ht])]
      unfold statusCsRows
      simp [List.filter_cons, hskip, List.append_assoc]
    · simp only [if_true]
      rw [ih t ht]
      unfold statusCsRows
      simp [List.filter_cons, hskip]

theorem statusAddPod_eq (opts : StatusOpts) (pod : Pod) (t : Table)
    (ht : t.header.length = (if opts.treeView then 13 else 14)) :
    statusAddPod opts t pod = { t with rows := t.rows ++ statusPodRowList opts pod } := by
  have htv : (statusInfo opts pod).treeView = opts.treeView := rfl
  unfold statusAddPod
  cases htree : opts.treeView
  · simp only [htree, Bool.false_eq_true, if_false]
    rw [statusContainerFold_eq opts _ "S" htv _ _ (by rw [ht]),
        statusContainerFold_eq opts _ "I" htv _ _ (by simp [ht]),
        statusContainerFold_eq opts _ "E" htv _ _ (by simp [ht])]
    unfold statusPodRowList
    simp [htree, List.append_assoc]
  · simp only [htree, if_true]
    have hlen : (GetDefaultCells (statusInfo opts pod) ++
        podStatusBuildRow pod (statusInfo opts pod) opts.showPrevious).length =
        t.header.length := by
      rw [List.length_append, getDefaultCells_length, podStatusBuildRow_length, ht, htv, htree]
      rfl
    rw [applyRow_eq _ _ _ hlen]
    rw [statusContainerFold_eq opts _ "S" htv _ _ (by simp [ht]),
        statusContainerFold_eq opts _ "I" htv _ _ (by simp [ht]),
        statusContainerFold_eq opts _ "E" htv _ _ (by simp [ht])]
    unfold statusPodRowList
    simp [htree, List.append_assoc]

theorem statusFoldPods_eq (opts : StatusOpts) :
    ∀ (pods : List Pod) (t : Table),
      t.header.length = (if opts.treeView then 13 else 14) →
      pods.foldl (statusAddPod opts) t =
        { t with rows := t.rows ++ (pods.map (statusPodRowList opts)).flatten } := by
  intro pods
  induction pods with
  | nil =>
    intro t ht
    simp
  | cons pod pods ih =>
    intro t ht
    rw [List.foldl_cons, statusAddPod_eq opts pod t ht, ih _ (by simp [ht])]
    simp [List.append_assoc]

theorem statusWithRows_shape {opts : StatusOpts} {pods : List Pod} {t : Table}
    (h : statusWithRows opts pods = Except.ok t) :
    t.header = statusHeader opts.treeView ∧
    t.rows = (pods.map (statusPodRowList opts)).flatten ∧
    t.hiddenRows = [] := by
  unfold statusWithRows at h
  cases hc : statusConfigured opts <;> rw [hc] at h
  · exact Except.noConfusion h
  next t0 =>
    cases h
    have hs := statusConfigured_shape hc
    have hlen : t0.header.length = (if opts.treeView then 13 else 14) := by
      rw [hs.1, statusHeader_length]
    rw [statusFoldPods_eq opts pods t0 hlen]
    exact ⟨hs.1, by rw [hs.2.1]; rfl, hs.2.2⟩

theorem statusAfterSort_shape {opts : StatusOpts} {pods : List Pod} {t : Table}
    (h : statusAfterSort opts pods = Except.ok t) :
    t.header = statusHeader opts.treeView ∧ t.hiddenRows = [] := by
  unfold statusAfterSort at h
  cases hw : statusWithRows opts pods <;> rw [hw] at h
  · exact Except.noConfusion h
  next t1 =>
    have h1 := statusWithRows_shape hw
    cases htree : opts.treeView <;> rw [htree] at h <;> simp only [Bool.not_false,
      Bool.not_true, if_true, if_false, Bool.false_eq_true] at h
    · have hf := sortByNames_fields h
      rw [htree] at h1
      exact ⟨hf.1.trans h1.1, hf.2.1.trans h1.2.2⟩
    · cases h
      rw [htree] at h1
      exact ⟨h1.1, h1.2.2⟩

theorem statusAfterSort_tree (opts : StatusOpts) (pods : List Pod)
    (htree : opts.treeView = true) :
    statusAfterSort opts pods = statusWithRows opts pods := by
  unfold statusAfterSort
  cases hw : statusWithRows opts pods
  · rfl
  · simp [htree]

theorem statusFinalTable_tree (opts : StatusOpts) (pods : List Pod)
    (htree : opts.treeView = true) :
    statusFinalTable opts pods = statusWithRows opts pods := by
  unfold statusFinalTable
  rw [statusAfterSort_tree opts pods htree]
  cases hw : statusWithRows opts pods
  · rfl
  · simp [htree]

/-- Claim C10: in tree view, `status` neither sorts nor hides outlier rows:
the final table is exactly the configured table with the rows appended in
insertion order (each pod line followed by its standard, init and
ephemeral container lines), independently of the supplied sort list and
oddities flag. -/
theorem status_tree_insertion_order (opts : StatusOpts) (pods : List Pod)
    (htree : opts.treeView = true) :
    (∀ slist b,
      statusFinalTable
        { opts with common := { opts.common with sortList := slist, showOddities := b } } pods =
        statusFinalTable opts pods) ∧
    statusFinalTable opts pods = statusWithRows opts pods ∧
    (∀ t, statusFinalTable opts pods = Except.ok t →
      t.rows = (pods.map (statusPodRowList opts)).flatten ∧ t.hiddenRows = []) := by
  refine ⟨?_, statusFinalTable_tree opts pods htree, ?_⟩
  · intro slist b
    rw [statusFinalTable_tree
        { opts with common := { opts.common with sortList := slist, showOddities := b } }
        pods htree,
      statusFinalTable_tree opts pods htree]
    rfl
  · intro t hok
    rw [statusFinalTable_tree opts pods htree] at hok
    have hs := statusWithRows_shape hok
    have hrows := hs.2.1
    have hpl : statusPodRowList
        { opts with common := { opts.common with sortList := opts.common.sortList } } =
        statusPodRowList opts := rfl
    exact ⟨hrows, hs.2.2⟩

/-- Concrete input for the tree-view witness. -/
def treePod : Pod :=
  { name := "a", nspace := "ns", nodeName := "n1",
    containerStatuses :=
      [{ name := "c1", ready := true, restartCount := 0,
         state := { running := some {} } }],
    initContainerStatuses :=
      [{ name := "i1", ready := false, restartCount := 2,
         state := { waiting := some { reason := "Init" } } }] }

/-- Concrete options for the tree-view witness: tree view with a sort list
and oddities on, both of which must be ignored. -/
def treeOptsW : StatusOpts :=
  { treeView := true,
    common := { sortList := ["!NAME"], showOddities := true } }

/-- The final tree-view table of the witness input. -/
def treeTableW : Table := (statusFinalTable treeOptsW [treePod]).toOption.getD {}

/-- Witness for claim C10 on a concrete pod: the rendered rows are the pod
line followed by its container lines in insertion order, no row is hidden,
and changing the sort list or oddities flag changes nothing. -/
theorem status_tree_insertion_order_witness :
    statusFinalTable
      { treeOptsW with common := { treeOptsW.common with sortList := [], showOddities := false } }
      [treePod] = statusFinalTable treeOptsW [treePod] ∧
    statusFinalTable treeOptsW [treePod] = Except.ok treeTableW ∧
    treeTableW.rows = ([treePod].map (statusPodRowList treeOptsW)).flatten ∧
    treeTableW.hiddenRows = [] := by
  have h := status_tree_insertion_order treeOptsW [treePod] rfl
  have hok : statusFinalTable treeOptsW [treePod] = Except.ok treeTableW := by decide
  have h3 := h.2.2 treeTableW hok
  exact ⟨h.1 [] false, hok, h3.1, h3.2⟩

theorem hideRows_foldl_eq : ∀ (idxs : List Nat) (acc : List Nat),
    idxs.Nodup → (∀ i ∈ idxs, i ∉ acc) →
    idxs.foldl (fun acc i => if acc.contains i then acc else acc ++ [i]) acc = acc ++ idxs
  | [], acc, _, _ => by simp
  | i :: idxs, acc, hnd, hdisj => by
    rw [List.foldl_cons]
    have hmem : i ∉ acc := hdisj i (List.mem_cons_self i idxs)
    have hcont : acc.contains i = false := by
      rw [contains_eq_decide_mem]
      simp [hmem]
    rw [hcont]
    simp only [Bool.false_eq_true, if_false]
    have hnd2 := (List.nodup_cons.mp hnd).2
    have hni := (List.nodup_cons.mp hnd).1
    have hdisj2 : ∀ j ∈ idxs, j ∉ acc ++ [i] := by
      intro j hj
      rw [List.mem_append]
      rintro (hja | hji)
      · exact hdisj j (List.mem_cons_of_mem i hj) hja
      · simp only [List.mem_singleton] at hji
        exact hni (hji ▸ hj)
    rw [hideRows_foldl_eq idxs (acc ++ [i]) hnd2 hdisj2]
    simp

theorem hideRows_eq_of_nil {t : Table} (idxs : List Nat)
    (h : t.hiddenRows = []) (hnd : idxs.Nodup) :
    (t.HideRows idxs).hiddenRows = idxs := by
  unfold Table.HideRows
  rw [h, hideRows_foldl_eq idxs [] hnd (by intro i _ hc; simp at hc)]
  rfl

theorem outlierIndices_nodup (vals : List Int) : (outlierIndices vals).Nodup := by
  unfold outlierIndices
  have h1 : vals.enum.Pairwise (fun a b : Nat × Int => a.1 < b.1) := pairwise_fst_lt_enum vals
  have h2 := h1.filter
    (fun p : Nat × Int =>
      4 * (vals.foldl (fun a v => a + ((vals.length : Int) * v -
        vals.foldl (fun a v => a + v) 0) * ((vals.length : Int) * v -
        vals.foldl (fun a v => a + v) 0)) 0) <
        (vals.length : Int) * (((vals.length : Int) * p.2 -
          vals.foldl (fun a v => a + v) 0) * ((vals.length : Int) * p.2 -
          vals.foldl (fun a v => a + v) 0)))
  have h3 := List.pairwise_map.mpr (h2.imp (fun h => Nat.ne_of_lt h))
  exact h3

/-- Claim C1: in `status`, when tree view is off, previous mode is off and
oddities mode is on, the pipeline feeds the full row set (`GetRows`) into
`ListOutOfRange` on column 6 — the RESTARTS column — and hides exactly the
returned row indices; when tree view or previous mode is on, the outlier
stage is skipped entirely. -/
theorem status_oddities_spec (opts : StatusOpts) (pods : List Pod) :
    (opts.treeView = false → opts.showPrevious = false → opts.common.showOddities = true →
      ∀ t, statusAfterSort opts pods = Except.ok t →
        t.header.getD 6 "" = "RESTARTS" ∧
        ∃ idxs, t.ListOutOfRange 6 t.GetRows = Except.ok idxs ∧
          statusFinalTable opts pods = Except.ok (t.HideRows idxs) ∧
          (t.HideRows idxs).hiddenRows = idxs) ∧
    ((opts.treeView = true ∨ opts.showPrevious = true) →
      statusFinalTable opts pods = statusAfterSort opts pods) := by
  constructor
  · intro h1 h2 h3 t hsort
    have hshape := statusAfterSort_shape hsort
    have hh := hshape.1
    rw [h1] at hh
    have h6 : 6 < t.header.length := by rw [hh]; decide
    have hname : t.header.getD 6 "" = "RESTARTS" := by rw [hh]; rfl
    have hlist : t.ListOutOfRange 6 t.GetRows =
        Except.ok (outlierIndices (t.GetRows.map (fun r => (r.getD 6 defaultCell).numericValue))) := by
      unfold Table.ListOutOfRange
      rw [if_pos h6]
    refine ⟨hname, _, hlist, ?_, ?_⟩
    · unfold statusFinalTable
      simp only [hsort, h1, h2, h3, Bool.not_false, if_true, hlist]
    · exact hideRows_eq_of_nil _ hshape.2 (outlierIndices_nodup _)
  · intro hor
    unfold statusFinalTable
    cases hsort : statusAfterSort opts pods
    · rfl
    · rcases hor with htree | hprev
      · simp [htree]
      · cases htree : opts.treeView <;> simp [htree, hprev]

/-- A running container status with a given name and restart count. -/
def oddCS (n : String) (rc : Int) : ContainerStatus :=
  { name := n, ready := true, restartCount := rc, state := { running := some {} } }

/-- Concrete pod whose restart counts are [0, 50, 1, 0, 0, 0]: only the 50
is an outlier. -/
def oddPod : Pod :=
  { name := "a", nspace := "ns", nodeName := "n1",
    containerStatuses := [oddCS "c1" 0, oddCS "c2" 50, oddCS "c3" 1,
                          oddCS "c4" 0, oddCS "c5" 0, oddCS "c6" 0] }

/-- Flat-view options with oddities mode on. -/
def oddOptsW : StatusOpts := { common := { showOddities := true } }

/-- The sorted `status` table of the oddities witness. -/
def oddSortedW : Table := (statusAfterSort oddOptsW [oddPod]).toOption.getD {}

/-- Witness for claim C1: on the concrete pod the outlier pass flags row 1
(restart count 50) and the final table hides exactly that row. -/
theorem status_oddities_spec_witness :
    statusAfterSort oddOptsW [oddPod] = Except.ok oddSortedW ∧
    oddSortedW.header.getD 6 "" = "RESTARTS" ∧
    oddSortedW.ListOutOfRange 6 oddSortedW.GetRows = Except.ok [1] ∧
    statusFinalTable oddOptsW [oddPod] = Except.ok (oddSortedW.HideRows [1]) ∧
    (oddSortedW.HideRows [1]).hiddenRows = [1] := by
  have hok : statusAfterSort oddOptsW [oddPod] = Except.ok oddSortedW := by decide
  obtain ⟨hname, idxs, hlist, hfin, hhid⟩ :=
    (status_oddities_spec oddOptsW [oddPod]).1 rfl rfl rfl oddSortedW hok
  have hidx : idxs = [1] := by
    apply Except.ok.inj
    rw [← hlist]
    decide
  rw [hidx] at hlist hfin hhid
  exact ⟨hok, hname, hlist, hfin, hhid⟩

/-- Claim C6: a failing configuration step (`SetFilter` during
configuration, `SortByNames` after the rows, `ListOutOfRange` in oddities
mode) propagates its error to the command result unchanged and the command
emits no output at all; when every step succeeds the single rendered table
is emitted.  Stated for both the `status` and the `probes` pipelines. -/
theorem config_error_propagation (sopts : StatusOpts) (popts : ProbesOpts)
    (spods ppods : List Pod) :
    (∀ e, statusConfigured sopts = Except.error e →
      statusRun sopts spods = Except.error e ∧ statusOutputs sopts spods = []) ∧
    (∀ t1 e, statusWithRows sopts spods = Except.ok t1 → sopts.treeView = false →
      t1.SortByNames sopts.common.sortList = Except.error e →
      statusRun sopts spods = Except.error e ∧ statusOutputs sopts spods = []) ∧
    (∀ t2 idxs, statusAfterSort sopts spods = Except.ok t2 →
      t2.ListOutOfRange 6 t2.GetRows = Except.ok idxs →
      Except.isOk (statusFinalTable sopts spods) = true) ∧
    (∀ t, statusFinalTable sopts spods = Except.ok t →
      statusRun sopts spods = Except.ok t.renderTable ∧
      statusOutputs sopts spods = [t.renderTable]) ∧
    (∀ e, probesConfigured popts = Except.error e →
      probesFinalTable popts ppods = some (Except.error e) ∧
      probesOutputs popts ppods = []) ∧
    (∀ t1 t2 e, probesConfigured popts = Except.ok t1 →
      ppods.foldlM (probesAddPod popts) t1 = some t2 →
      t2.SortByNames popts.common.sortList = Except.error e →
      probesFinalTable popts ppods = some (Except.error e) ∧
      probesOutputs popts ppods = []) ∧
    (∀ t1 t2 t3, probesConfigured popts = Except.ok t1 →
      ppods.foldlM (probesAddPod popts) t1 = some t2 →
      t2.SortByNames popts.common.sortList = Except.ok t3 →
      probesFinalTable popts ppods = some (Except.ok t3) ∧
      probesOutputs popts ppods = [t3.renderTable]) := by
  refine ⟨?_, ?_, ?_, ?_, ?_, ?_, ?_⟩
  · intro e h
    have hw : statusWithRows sopts spods = Except.error e := by
      unfold statusWithRows
      simp only [h]
    have ha : statusAfterSort sopts spods = Except.error e := by
      unfold statusAfterSort
      simp only [hw]
    have hf : statusFinalTable sopts spods = Except.error e := by
      unfold statusFinalTable
      simp only [ha]
    constructor
    · unfold statusRun
      simp only [hf]
    · unfold statusOutputs
      simp only [hf]
  · intro t1 e hw htree hsort
    have ha : statusAfterSort sopts spods = Except.error e := by
      unfold statusAfterSort
      simp only [hw, htree, Bool.not_false, if_true, hsort]
    have hf : statusFinalTable sopts spods = Except.error e := by
      unfold statusFinalTable
      simp only [ha]
    constructor
    · unfold statusRun
      simp only [hf]
    · unfold statusOutputs
      simp only [hf]
  · intro t2 idxs ha hlist
    unfold statusFinalTable
    simp only [ha]
    cases htree : sopts.treeView <;>
      simp only [Bool.not_false, Bool.not_true, if_true, if_false, Bool.false_eq_true]
    · cases hprev : sopts.showPrevious <;>
        simp only [Bool.not_false, Bool.not_true, if_true, if_false, Bool.false_eq_true]
      · cases hodd : sopts.common.showOddities <;>
          simp only [if_true, if_false, Bool.false_eq_true]
        · rfl
        · simp only [hlist]
          rfl
      · rfl
    · rfl
  · intro t hf
    constructor
    · unfold statusRun
      simp only [hf]
    · unfold statusOutputs
      simp only [hf]
  · intro e h
    have hfin : probesFinalTable popts ppods = some (Except.error e) := by
      unfold probesFinalTable
      simp only [h]
    exact ⟨hfin, by unfold probesOutputs; simp only [hfin]⟩
  · intro t1 t2 e hc hfold hsort
    have hfin : probesFinalTable popts ppods = some (Except.error e) := by
      unfold probesFinalTable
      simp only [hc, hfold, hsort]
    exact ⟨hfin, by unfold probesOutputs; simp only [hfin]⟩
  · intro t1 t2 t3 hc hfold hsort
    have hfin : probesFinalTable popts ppods = some (Except.ok t3) := by
      unfold probesFinalTable
      simp only [hc, hfold, hsort]
    exact ⟨hfin, by unfold probesOutputs; simp only [hfin]⟩

/-- Bad-filter `status` options for the error-propagation witness. -/
def sErrOpts : StatusOpts := { common := { filterList := ["BOGUS=1"] } }

/-- Bad-sort `status` options for the error-propagation witness. -/
def sSortOpts : StatusOpts := { common := { sortList := ["NOPE"] } }

/-- Plain `status` options for the error-propagation witness. -/
def sPlain : StatusOpts := {}

/-- The rows-stage table of the bad-sort witness input. -/
def tS1 : Table := (statusWithRows sSortOpts []).toOption.getD {}

/-- The sorted table of the plain witness input. -/
def tS2 : Table := (statusAfterSort sPlain []).toOption.getD {}

/-- The final table of the plain witness input. -/
def tS3 : Table := (statusFinalTable sPlain []).toOption.getD {}

/-- Bad-filter `probes` options for the error-propagation witness. -/
def pErrOpts : ProbesOpts := { common := { filterList := ["BOGUS=1"] } }

/-- Bad-sort `probes` options for the error-propagation witness. -/
def pSortOpts : ProbesOpts := { common := { sortList := ["NOPE"] } }

/-- Plain `probes` options for the error-propagation witness. -/
def pPlain : ProbesOpts := {}

/-- The configured table of the bad-sort `probes` witness input. -/
def tP1 : Table := (probesConfigured pSortOpts).toOption.getD {}

/-- The configured table of the plain `probes` witness input. -/
def tP1b : Table := (probesConfigured pPlain).toOption.getD {}

/-- The sorted table of the plain `probes` witness input. -/
def tP2 : Table := (tP1b.SortByNames ([] : List String)).toOption.getD {}

/-- Witness for claim C6: an unknown filter column and an unknown sort
column each abort both commands with `UnknownColumn` and no output, while
the all-success path emits exactly one rendered table. -/
theorem config_error_propagation_witness :
    (statusRun sErrOpts [] = Except.error TableError.UnknownColumn ∧
      statusOutputs sErrOpts [] = []) ∧
    (statusRun sSortOpts [] = Except.error TableError.UnknownColumn ∧
      statusOutputs sSortOpts [] = []) ∧
    Except.isOk (statusFinalTable sPlain []) = true ∧
    (statusRun sPlain [] = Except.ok tS3.renderTable ∧
      statusOutputs sPlain [] = [tS3.renderTable]) ∧
    (probesFinalTable pErrOpts [] = some (Except.error TableError.UnknownColumn) ∧
      probesOutputs pErrOpts [] = []) ∧
    (probesFinalTable pSortOpts [] = some (Except.error TableError.UnknownColumn) ∧
      probesOutputs pSortOpts [] = []) ∧
    (probesFinalTable pPlain [] = some (Except.ok tP2) ∧
      probesOutputs pPlain [] = [tP2.renderTable]) := by
  have h1 := (config_error_propagation sErrOpts pErrOpts [] []).1
    TableError.UnknownColumn (by decide)
  have h2 := (config_error_propagation sSortOpts pPlain [] []).2.1
    tS1 TableError.UnknownColumn (by decide) rfl (by decide)
  have h3 := (config_error_propagation sPlain pPlain [] []).2.2.1
    tS2 [] (by decide) (by decide)
  have h4 := (config_error_propagation sPlain pPlain [] []).2.2.2.1
    tS3 (by decide)
  have h5 := (config_error_propagation sPlain pErrOpts [] []).2.2.2.2.1
    TableError.UnknownColumn (by decide)
  have h6 := (config_error_propagation sPlain pSortOpts [] []).2.2.2.2.2.1
    tP1 tP1 TableError.UnknownColumn (by decide) rfl (by decide)
  have h7 := (config_error_propagation sPlain pPlain [] []).2.2.2.2.2.2
    tP1b tP1b tP2 (by decide) rfl (by decide)
  exact ⟨h1, h2, h3, h4, h5, h6, h7⟩

/-- A running container status used as the display counterexample. -/
def runningCS : ContainerStatus :=
  { name := "c1", ready := true, restartCount := 2, state := { running := some {} } }

/-- Counterexample to claim C7 as stated: for a running (non-terminated)
container the EXIT-CODE cell is numeric with value 0 but displays the
empty string, not the decimal rendering "0". -/
theorem statusBuildRow_display_counterexample :
    ((statusBuildRow runningCS {} false).getD 5 defaultCell).isNumeric = true ∧
    ((statusBuildRow runningCS {} false).getD 5 defaultCell).numericValue = 0 ∧
    ¬ ((statusBuildRow runningCS {} false).getD 5 defaultCell).displayText =
        toString ((statusBuildRow runningCS {} false).getD 5 defaultCell).numericValue := by
  decide

/-- Claim C7 as amended: `statusBuildRow` emits RESTARTS, EXIT-CODE and
SIGNAL as numeric cells; RESTARTS always carries the restart count with
its decimal rendering as display, while EXIT-CODE and SIGNAL carry the
exit code and signal with decimal display exactly when the selected state
is Terminated, and otherwise display the empty string with value 0. -/
theorem statusBuildRow_numeric_cells (c : ContainerStatus) (info : ContainerInfo) (p : Bool) :
    (statusBuildRow c info p).getD ((if info.treeView then 1 else 0) + 2) defaultCell =
      NewCellInt (toString c.restartCount) c.restartCount ∧
    (∀ term, (if p then c.lastTerminationState else c.state).terminated = some term →
      (statusBuildRow c info p).getD ((if info.treeView then 1 else 0) + 5) defaultCell =
        NewCellInt (toString term.exitCode) term.exitCode ∧
      (statusBuildRow c info p).getD ((if info.treeView then 1 else 0) + 6) defaultCell =
        NewCellInt (toString term.signal) term.signal) ∧
    ((if p then c.lastTerminationState else c.state).terminated = none →
      (statusBuildRow c info p).getD ((if info.treeView then 1 else 0) + 5) defaultCell =
        NewCellInt "" 0 ∧
      (statusBuildRow c info p).getD ((if info.treeView then 1 else 0) + 6) defaultCell =
        NewCellInt "" 0) := by
  refine ⟨?_, ?_, ?_⟩
  · cases hw : (if p then c.lastTerminationState else c.state).waiting <;>
      cases ht : (if p then c.lastTerminationState else c.state).terminated <;>
        cases hr : (if p then c.lastTerminationState else c.state).running <;>
          cases hs : c.started <;> cases htv : info.treeView <;>
            simp [statusBuildRow, hw, ht, hr, hs, htv]
  · intro term hterm
    cases hw : (if p then c.lastTerminationState else c.state).waiting <;>
      cases hr : (if p then c.lastTerminationState else c.state).running <;>
        cases hs : c.started <;> cases htv : info.treeView <;>
          simp [statusBuildRow, hw, hterm, hr, hs, htv]
  · intro hnone
    cases hw : (if p then c.lastTerminationState else c.state).waiting <;>
      cases hr : (if p then c.lastTerminationState else c.state).running <;>
        cases hs : c.started <;> cases htv : info.treeView <;>
          simp [statusBuildRow, hw, hnone, hr, hs, htv]

/-- A terminated container status used as the amended-claim witness. -/
def terminatedCS : ContainerStatus :=
  { name := "c2", ready := false, restartCount := 3,
    state := { terminated := some { exitCode := 137, signal := 9 } } }

/-- Witness for the amended claim C7 at a terminated container: the three
cells carry 3, 137 and 9 with their decimal renderings. -/
theorem statusBuildRow_numeric_cells_witness :
    (statusBuildRow terminatedCS {} false).getD 2 defaultCell = NewCellInt "3" 3 ∧
    (statusBuildRow terminatedCS {} false).getD 5 defaultCell = NewCellInt "137" 137 ∧
    (statusBuildRow terminatedCS {} false).getD 6 defaultCell = NewCellInt "9" 9 := by
  have h := statusBuildRow_numeric_cells terminatedCS {} false
  have h2 := h.2.1 { exitCode := 137, signal := 9 } (by decide)
  exact ⟨h.1, h2.1, h2.2⟩

/-- The GRPC probe whose `Service` pointer is nil. -/
def grpcNilProbe : Probe := { grpc := some { service := none, port := 50051 } }

/-- The GRPC probe with a service name and a positive port. -/
def grpcSvcProbe : Probe := { grpc := some { service := some "svc", port := 50051 } }

/-- Claim C8 (refuting the safety claim, the code is the bug): the GRPC
branch of `buildProbeAction` dereferences the `Service` pointer exactly
when it is nil — the run panics (modelled by `none`) — and when the
pointer is non-nil the produced action is just ":50051", never containing
the service name. -/
theorem buildProbeAction_grpc_bug :
    buildProbeAction "liveness" grpcNilProbe = none ∧
    buildProbeAction "liveness" grpcSvcProbe =
      some [{ probeName := "liveness", actionName := "GRPC", action := ":50051",
              probe := grpcSvcProbe }] := by
  decide

/-- A container carrying only a startup probe. -/
def startupOnlyC : Container := { name := "web", startupProbe := some { exec := some ["ls"] } }

/-- A container carrying only a liveness probe. -/
def livenessOnlyC : Container := { name := "web", livenessProbe := some { exec := some ["ls"] } }

/-- A container carrying only a readiness probe. -/
def readinessOnlyC : Container := { name := "web", readinessProbe := some { exec := some ["ls"] } }

/-- Claim C9 (the startup case fails, the code is the bug): liveness and
readiness probe actions carry their own probe kind as `probeName`, but the
startup probe's actions are built with the name "liveness", so the
rendered PROBE cell of a startup probe reads "liveness". -/
theorem buildProbeList_startup_label_bug :
    buildProbeList livenessOnlyC =
      some [("liveness", [{ probeName := "liveness", actionName := "Exec", action := "ls",
                            probe := { exec := some ["ls"] } }])] ∧
    buildProbeList readinessOnlyC =
      some [("readiness", [{ probeName := "readiness", actionName := "Exec", action := "ls",
                             probe := { exec := some ["ls"] } }])] ∧
    buildProbeList startupOnlyC =
      some [("startup", [{ probeName := "liveness", actionName := "Exec", action := "ls",
                           probe := { exec := some ["ls"] } }])] ∧
    (probesBuildRow {} { probeName := "liveness", actionName := "Exec", action := "ls",
                         probe := { exec := some ["ls"] } }).getD 0 defaultCell =
      NewCellText "liveness" := by
  decide

end KubectlIce
